import Mathlib

/-!
Verification of `seven_segment_module`, a character-device driver for a 7-segment display.

Shallow embedding of `src/seven_segment_module.c`.

* The module globals (`mode`, `dot_thread`, `animation_thread`, `current_number`) and the
  part of the kernel and hardware the module talks to (GPIO line levels, the live kernel
  threads it created, and the sequence of kernel calls it made) form one `State` record;
  every function of the module is a function on that record.
* A `struct task_struct *` is a `TaskPtr`: `NULL`, a pointer to a task, or an `ERR_PTR`.
  `kthread_stop` dereferences its argument, so it is defined only on a pointer to a task
  that is still alive; on anything else the model returns a `Fault` (a kernel oops).
  Pin writes a thread makes while it is being stopped are steps of the thread, not of
  `kthread_stop`.
* Bytes (`char`) are natural numbers below 256, user buffers are lists of bytes,
  `size_t` is `Nat`, `int`, `ssize_t` and `loff_t` are `Int`.
* The outcome of `kthread_run` (success, or failure with some errno) is decided by the
  kernel; it is an argument `run_errno : Option Nat` of the functions that call it.
* GPIO calls are assumed to take effect (the module ignores their return values).
-/

namespace SevenSegment

/-! ## Constants and tables -/

def FIRST_GPIO : Nat := 2
def NUM_GPIOS : Nat := 7
def DOT_GPIO : Nat := 9

/-- Errno value of "invalid argument". -/
def EINVAL : Int := 22
/-- Errno value of "bad address". -/
def EFAULT : Int := 14

/-- First enumerator of the anonymous `enum {OFF, NUMBER, ANIMATION}`. -/
def OFF : Nat := 0
/-- Second enumerator of the anonymous `enum {OFF, NUMBER, ANIMATION}`. -/
def NUMBER : Nat := 1
/-- Third enumerator of the anonymous `enum {OFF, NUMBER, ANIMATION}`. -/
def ANIMATION : Nat := 2

def segment_pins : List Nat := [2, 3, 4, 5, 6, 7, 8]

def segments_off : List Bool := [true, true, true, true, true, true, true]

def segments_number : List (List Bool) := [
  [false, false, false, false, false, false, true],   -- 0
  [true, false, false, true, true, true, true],       -- 1
  [false, false, true, false, false, true, false],    -- 2
  [false, false, false, false, true, true, false],    -- 3
  [true, false, false, true, true, false, false],     -- 4
  [false, true, false, false, true, false, false],    -- 5
  [false, true, false, false, false, false, false],   -- 6
  [false, false, false, true, true, true, true],      -- 7
  [false, false, false, false, false, false, false],  -- 8
  [false, false, false, false, true, false, false]    -- 9
]

def segments_animation : List (List Bool) := [
  [false, true, true, true, true, true, true],
  [true, false, true, true, true, true, true],
  [true, true, true, true, true, true, false],
  [true, true, true, true, false, true, true],
  [true, true, true, false, true, true, true],
  [true, true, false, true, true, true, true],
  [true, true, true, true, true, true, false],
  [true, true, true, true, true, false, true]
]

/-! ## Kernel objects -/

/-- The two thread functions of the module. -/
inductive ThreadFn
  | dot_blinking_thread
  | animation_thread_function
  deriving DecidableEq, Repr

/-- Value of a `struct task_struct *`: `NULL`, a pointer to the task with the given id,
or `ERR_PTR(-errno)`. -/
inductive TaskPtr
  | NULL
  | task (tid : Nat)
  | ERR_PTR (errno : Nat)
  deriving DecidableEq, Repr

/-- Kernel macro `IS_ERR`. -/
def IS_ERR : TaskPtr → Bool
  | .ERR_PTR _ => true
  | _ => false

/-- Kernel macro `PTR_ERR`, used by the module only on pointers for which `IS_ERR` holds. -/
def PTR_ERR : TaskPtr → Int
  | .ERR_PTR errno => -(errno : Int)
  | _ => 0

/-- Kernel and hardware calls made by the module, in the order they are made. -/
inductive Event
  | kthread_stop (p : TaskPtr)
  | kthread_run (fn : ThreadFn) (result : TaskPtr)
  | gpio_set_value (pin : Nat) (value : Bool)
  | gpio_request (pin : Nat)
  | gpio_direction_output (pin : Nat) (value : Bool)
  | gpio_export (pin : Nat)
  | gpio_unexport (pin : Nat)
  | gpio_free (pin : Nat)
  | register_chrdev
  | unregister_chrdev
  | class_create
  | class_unregister
  | class_destroy
  | device_create
  | device_destroy
  deriving DecidableEq, Repr

/-- Ways in which the C code leaves defined behaviour. -/
inductive Fault
  | bad_task_pointer (p : TaskPtr)
  | out_of_bounds
  deriving DecidableEq, Repr

/-- Module globals together with the kernel and hardware state the module acts on. -/
structure State where
  mode : Nat
  dot_thread : TaskPtr
  animation_thread : TaskPtr
  current_number : Int
  /-- Level of each GPIO line. -/
  gpio : Nat → Bool
  /-- Kernel threads created by the module that are still alive. -/
  kthreads : List (Nat × ThreadFn)
  /-- Kernel and hardware calls made so far, oldest first. -/
  trace : List Event

/-- State of a freshly loaded module (the static initialisers), before `sevenseg_init`. -/
def boot (levels : Nat → Bool) : State :=
  { mode := OFF, dot_thread := .NULL, animation_thread := .NULL, current_number := -1,
    gpio := levels, kthreads := [], trace := [] }

/-! ## Kernel primitives -/

def gpio_set_value (s : State) (pin : Nat) (value : Bool) : State :=
  { s with gpio := fun p => if p = pin then value else s.gpio p,
           trace := s.trace ++ [.gpio_set_value pin value] }

def gpio_direction_output (s : State) (pin : Nat) (value : Bool) : State :=
  { s with gpio := fun p => if p = pin then value else s.gpio p,
           trace := s.trace ++ [.gpio_direction_output pin value] }

/-- Record a call that has no effect on the modelled state. -/
def call (s : State) (e : Event) : State :=
  { s with trace := s.trace ++ [e] }

/-- Ids of the live threads. -/
def live_tids (s : State) : List Nat := s.kthreads.map Prod.fst

/-- Ids of the live threads that run `animation_thread_function`. -/
def animation_tids (s : State) : List Nat :=
  (s.kthreads.filter (fun k => k.2 = ThreadFn.animation_thread_function)).map Prod.fst

/-- Ids of the live threads that run `dot_blinking_thread`. -/
def dot_tids (s : State) : List Nat :=
  (s.kthreads.filter (fun k => k.2 = ThreadFn.dot_blinking_thread)).map Prod.fst

/-- Kernel `kthread_stop`: blocks until the thread has exited. Defined only on a pointer to
a live task. The pin writes the thread still makes before it exits (the animation thread
tests `kthread_should_stop` only between two passes over the frames) are not part of this
function: they are steps of the thread, taken before the stop returns, so the pin levels
found after a stop are those the thread left and are fixed only by a later write. -/
def kthread_stop (s : State) (p : TaskPtr) : Except Fault State :=
  match p with
  | .task tid =>
    if tid ∈ live_tids s then
      .ok { s with kthreads := s.kthreads.filter (fun k => k.1 ≠ tid),
                   trace := s.trace ++ [.kthread_stop p] }
    else .error (.bad_task_pointer p)
  | _ => .error (.bad_task_pointer p)

/-- An id not used by any live thread. -/
def fresh_tid (s : State) : Nat := (live_tids s).foldr max 0 + 1

/-- Kernel `kthread_run`: with `run_errno = none` a new thread running `fn` is created and
its task pointer returned, with `run_errno = some e` the result is `ERR_PTR(-e)`. -/
def kthread_run (s : State) (fn : ThreadFn) (run_errno : Option Nat) : TaskPtr × State :=
  match run_errno with
  | none =>
    let p := TaskPtr.task (fresh_tid s)
    (p, { s with kthreads := s.kthreads ++ [(fresh_tid s, fn)],
                 trace := s.trace ++ [.kthread_run fn p] })
  | some errno =>
    (.ERR_PTR errno, { s with trace := s.trace ++ [.kthread_run fn (.ERR_PTR errno)] })

/-- Kernel `isdigit`: true exactly for the bytes `'0'` (0x30) to `'9'` (0x39). -/
def isdigit (c : Nat) : Bool := decide ('0'.toNat ≤ c) && decide (c ≤ '9'.toNat)

/-- Kernel `strncmp` on NUL-terminated byte arrays (a read past the end of the list reads
the terminating NUL). -/
def strncmp (cs ct : List Nat) : Nat → Int
  | 0 => 0
  | count + 1 =>
    let c1 := cs.headD 0
    let c2 := ct.headD 0
    if c1 ≠ c2 then (if c1 < c2 then -1 else 1)
    else if c1 = 0 then 0
    else strncmp cs.tail ct.tail count

/-- Bytes of a C string literal, without the terminating NUL. -/
def cstr (lit : String) : List Nat := lit.toList.map Char.toNat

/-- Kernel `copy_from_user`: `buffer` is the readable user memory at the source address;
the copy of `len` bytes succeeds when that many bytes are readable. -/
def copy_from_user (buffer : List Nat) (len : Nat) : Option (List Nat) :=
  if len ≤ buffer.length then some (buffer.take len) else none

/-- Decimal digits of `n`, most significant first, prepended to `acc`. -/
def put_dec : Nat → Nat → List Nat → List Nat
  | 0, _, acc => acc
  | fuel + 1, n, acc =>
    if n < 10 then ('0'.toNat + n) :: acc
    else put_dec fuel (n / 10) (('0'.toNat + n % 10) :: acc)

/-- Conversion `%d` of the kernel `snprintf`. -/
def fmt_d (v : Int) : List Nat :=
  (if v < 0 then ['-'.toNat] else []) ++ put_dec (v.natAbs + 1) v.natAbs []

/-- Kernel `snprintf`, given the fully formatted `text`: the buffer of `size` bytes receives
at most `size - 1` bytes of it and a NUL (the rest of the buffer is shown as NUL), and the
return value is the length of `text`. -/
def snprintf (size : Nat) (text : List Nat) : List Nat × Int :=
  ((text.take (size - 1)) ++ List.replicate (size - (text.take (size - 1)).length) 0,
   (text.length : Int))

/-! ## The module -/

def set_segment_values (s : State) (values : List Bool) : Except Fault State :=
  (List.range NUM_GPIOS).foldlM
    (fun st i =>
      match segment_pins[i]?, values[i]? with
      | some pin, some v => .ok (gpio_set_value st pin v)
      | _, _ => .error .out_of_bounds)
    s

def display_number (s : State) (num : Int) : Except Fault State := do
  let row ← (if 0 ≤ num then
      match segments_number[num.toNat]? with
      | some r => Except.ok r
      | none => Except.error Fault.out_of_bounds
    else Except.error Fault.out_of_bounds)
  let values ← (List.range 7).mapM
    (fun i => match row[i]? with
      | some v => Except.ok v
      | none => Except.error Fault.out_of_bounds)
  set_segment_values s values

/-- One pass through the body of the inner loop of `animation_thread_function`. -/
def animation_thread_function_step (s : State) (i : Nat) : Except Fault State :=
  match segments_animation[i]? with
  | some frame => set_segment_values s frame
  | none => .error .out_of_bounds

/-- The inner `for` loop of `animation_thread_function`: one pass over the eight frames. -/
def animation_thread_function_pass (s : State) : Except Fault State :=
  (List.range 8).foldlM animation_thread_function_step s

/-- The thread function `animation_thread_function`, run for `rounds` iterations of its
outer `while` loop, after which `kthread_should_stop` holds. -/
def animation_thread_function (s : State) : Nat → Except Fault State
  | 0 => .ok s
  | rounds + 1 => do
    let s ← animation_thread_function_pass s
    animation_thread_function s rounds

/-- One of the two pin writes of the loop of `dot_blinking_thread`. -/
def dot_blinking_thread_step (s : State) (value : Bool) : State :=
  gpio_set_value s DOT_GPIO value

/-- Module initialisation. `major` is the result of `register_chrdev`; `class_errno`,
`device_errno` and `run_errno` are the outcomes of `class_create`, `device_create` and
`kthread_run` (`none` for success). -/
def sevenseg_init (s : State) (major : Int) (class_errno device_errno run_errno : Option Nat) :
    Int × State :=
  let s := call s .register_chrdev
  if major < 0 then (major, s)
  else
    let s := call s .class_create
    match class_errno with
    | some e => (-(e : Int), call s .unregister_chrdev)
    | none =>
      let s := call s .device_create
      match device_errno with
      | some e => (-(e : Int), call (call s .class_destroy) .unregister_chrdev)
      | none =>
        let s := (List.range NUM_GPIOS).foldl
          (fun st i =>
            let pin := segment_pins.getD i 0
            call (gpio_direction_output (call st (.gpio_request pin)) pin
              (segments_off.getD i false)) (.gpio_export pin))
          s
        let s := call (gpio_direction_output (call s (.gpio_request DOT_GPIO)) DOT_GPIO true)
          (.gpio_export DOT_GPIO)
        let r := kthread_run s .dot_blinking_thread run_errno
        let s := { r.2 with dot_thread := r.1 }
        if IS_ERR s.dot_thread then (PTR_ERR s.dot_thread, s)
        else (0, s)

/-- Module exit. -/
def sevenseg_exit (s : State) : Except Fault State := do
  let s ← (if s.dot_thread ≠ .NULL then kthread_stop s s.dot_thread else pure s)
  let s ← (if s.animation_thread ≠ .NULL then kthread_stop s s.animation_thread else pure s)
  let s ← set_segment_values s segments_off
  let s := gpio_set_value s DOT_GPIO true
  let s := (List.range NUM_GPIOS).foldl
    (fun st i =>
      let pin := segment_pins.getD i 0
      call (call st (.gpio_unexport pin)) (.gpio_free pin))
    s
  let s := call (call s (.gpio_unexport DOT_GPIO)) (.gpio_free DOT_GPIO)
  let s := call s .device_destroy
  let s := call s .class_unregister
  let s := call s .class_destroy
  let s := call s .unregister_chrdev
  pure s

/-- Text of the C string literal `"off"`. -/
def lit_off : List Nat := cstr "off"
/-- Text of the C string literal `"animation"`. -/
def lit_animation : List Nat := cstr "animation"

/-- The `write` file operation. `buffer` is the user memory at the address passed in, `len`
the byte count; the result is the `ssize_t` return value and the new state. -/
def device_write (s : State) (buffer : List Nat) (len : Nat) (run_errno : Option Nat) :
    Except Fault (Int × State) :=
  if len > 19 then .ok (-EINVAL, s)
  else
    match copy_from_user buffer len with
    | none => .ok (-EFAULT, s)
    | some data =>
      let msg := data ++ List.replicate (20 - len) 0
      let msg0 := msg.headD 0
      if isdigit msg0 then
        let num : Int := (msg0 : Int) - ('0'.toNat : Int)
        if num ≥ 0 ∧ num ≤ 9 then do
          let s ← (if s.animation_thread ≠ .NULL then do
              let s ← kthread_stop s s.animation_thread
              pure { s with animation_thread := .NULL }
            else pure s)
          let s ← display_number s num
          pure ((len : Int), { s with mode := NUMBER, current_number := num })
        else pure ((len : Int), s)
      else if strncmp msg lit_off 3 = 0 then do
        let s ← (if s.animation_thread ≠ .NULL then do
            let s ← kthread_stop s s.animation_thread
            pure { s with animation_thread := .NULL }
          else pure s)
        let s ← set_segment_values s segments_off
        pure ((len : Int), { s with mode := OFF })
      else if strncmp msg lit_animation 9 = 0 then do
        let s ← (if s.animation_thread ≠ .NULL then kthread_stop s s.animation_thread
          else pure s)
        let r := kthread_run s .animation_thread_function run_errno
        let s := { r.2 with animation_thread := r.1 }
        if IS_ERR s.animation_thread then pure (PTR_ERR s.animation_thread, s)
        else pure ((len : Int), { s with mode := ANIMATION })
      else pure ((len : Int), s)

/-- The text that the format string chosen by the `switch` of `device_read` produces. -/
def status_text (s : State) : List Nat :=
  if s.mode = OFF then cstr "Off\n"
  else if s.mode = NUMBER then cstr "Number: " ++ fmt_d s.current_number ++ cstr "\n"
  else if s.mode = ANIMATION then cstr "Animation\n"
  else cstr "Unknown\n"

/-- Outcome of a `read`: return value, bytes copied to the user buffer, file offset after
the call, and state after the call. -/
structure ReadResult where
  ret : Int
  data : List Nat
  offset : Int
  state : State

/-- The `read` file operation. `cap` is the number of writable bytes at the user address,
`len` the byte count asked for and `offset` the file position (`*offset` on entry). -/
def device_read (s : State) (cap : Nat) (len : Nat) (offset : Int) :
    Except Fault ReadResult :=
  let r := snprintf 20 (status_text s)
  let msg := r.1
  let msg_len := r.2
  if offset ≥ msg_len then .ok { ret := 0, data := [], offset := offset, state := s }
  else
    let len : Int := if (len : Int) > msg_len - offset then msg_len - offset else (len : Int)
    if offset < 0 ∨ offset + len > 20 then .error .out_of_bounds
    else if len.toNat > cap then
      .ok { ret := -EFAULT, data := [], offset := offset, state := s }
    else
      .ok { ret := len, data := (msg.drop offset.toNat).take len.toNat,
            offset := offset + len, state := s }

/-! ## Auxiliary definitions: the states the commands lead to, reachability, test drivers -/

/-- The animation handle is either `NULL` with no animation thread alive, or points to the
one live animation thread. -/
def absent_or_live (s : State) : Bool :=
  match s.animation_thread with
  | .NULL => animation_tids s == []
  | .task t => animation_tids s == [t]
  | .ERR_PTR _ => false

/-- Effect of a successful `set_segment_values`: the seven pin writes, in order. -/
def drive (s : State) (values : List Bool) : State :=
  (List.zip segment_pins values).foldl (fun st pv => gpio_set_value st pv.1 pv.2) s

/-- Levels of the seven segment pins. -/
def segment_levels (s : State) : List Bool := segment_pins.map s.gpio

/-- State after `kthread_stop(animation_thread)` returns, for a handle that points to the
live task `t`: the thread is gone and the call is recorded. -/
def stopped (s : State) (t : Nat) : State :=
  { s with kthreads := s.kthreads.filter (fun k => k.1 ≠ t),
           trace := s.trace ++ [.kthread_stop (.task t)] }

/-- State after the guarded block
`if (animation_thread) { kthread_stop(animation_thread); animation_thread = NULL; }`
when the handle is `NULL` or points to a live task. -/
def cleared (s : State) : State :=
  match s.animation_thread with
  | .task t => { stopped s t with animation_thread := .NULL }
  | _ => s

/-- State in which a recognised `digit d` write ends. -/
def digit_state (s : State) (d : Nat) : State :=
  { drive (cleared s) (segments_number.getD d []) with mode := NUMBER, current_number := d }

/-- State in which a recognised `off` write ends. -/
def off_state (s : State) : State :=
  { drive (cleared s) segments_off with mode := OFF }

/-- State after the guarded block `if (animation_thread) { kthread_stop(animation_thread); }`
of the `animation` branch, when the handle is `NULL` or points to a live task: the handle
itself is left as it is. -/
def stopped_only (s : State) : State :=
  match s.animation_thread with
  | .task t => stopped s t
  | _ => s

/-- State in which an `animation` write ends when `kthread_run` succeeds. -/
def animation_state (s : State) : State :=
  { (kthread_run (stopped_only s) .animation_thread_function none).2 with
      animation_thread := .task (fresh_tid (stopped_only s)), mode := ANIMATION }

/-- State in which an `animation` write ends when `kthread_run` fails with `errno`. -/
def failed_state (s : State) (errno : Nat) : State :=
  { (kthread_run (stopped_only s) .animation_thread_function (some errno)).2 with
      animation_thread := .ERR_PTR errno }

/-- The message buffer `msg` of `device_write` after a successful copy of `data`. -/
def msg_of (data : List Nat) (len : Nat) : List Nat := data ++ List.replicate (20 - len) 0

/-- A state in which the animation runs: dot thread 1 and animation thread 2 are alive. -/
def state_animating : State :=
  { mode := ANIMATION, dot_thread := .task 1, animation_thread := .task 2, current_number := 3,
    gpio := fun _ => true,
    kthreads := [(1, .dot_blinking_thread), (2, .animation_thread_function)], trace := [] }

/-- A state that shows the digit 3: only the dot thread is alive. -/
def state_number : State :=
  { mode := NUMBER, dot_thread := .task 1, animation_thread := .NULL, current_number := 3,
    gpio := fun p => decide (p = 6 ∨ p = 7 ∨ p = 9),
    kthreads := [(1, .dot_blinking_thread)], trace := [] }

/-- The test sequence of the round trip: for each digit of the list in turn, write the digit
followed by `tail`, then read the status at offset 0; the results of the reads are
collected. -/
def digits_round_trip (s : State) (tail : List Nat) (cap n : Nat) :
    List Nat → Except Fault (List (List Nat))
  | [] => .ok []
  | d :: ds => do
    let w ← device_write s (('0'.toNat + d) :: tail) (tail.length + 1) none
    let r ← device_read w.2 cap n 0
    let rest ← digits_round_trip r.state tail cap n ds
    pure (r.data :: rest)

/-- States reachable from a successful `sevenseg_init` by `device_write` calls whose
`kthread_run` succeeds and `device_read` calls, interleaved with pin writes of the two
threads while they are alive. -/
inductive Reachable : State → Prop
  | init (levels : Nat → Bool) (major : Int) (hmajor : 0 ≤ major) :
      Reachable (sevenseg_init (boot levels) major none none none).2
  | write (s : State) (buffer : List Nat) (len : Nat) (r : Int) (s' : State) :
      Reachable s → device_write s buffer len none = .ok (r, s') → Reachable s'
  | read (s : State) (cap len : Nat) (offset : Int) (r : ReadResult) :
      Reachable s → device_read s cap len offset = .ok r → Reachable r.state
  | animation_frame (s : State) (i : Nat) (s' : State) :
      Reachable s → animation_tids s ≠ [] → animation_thread_function_step s i = .ok s' →
      Reachable s'
  | dot_toggle (s : State) (value : Bool) :
      Reachable s → dot_tids s ≠ [] → Reachable (dot_blinking_thread_step s value)

/-- The three parts of the mode invariant. -/
def mode_invariant (s : State) : Prop :=
  (s.mode = NUMBER → ∃ d : Nat, d ≤ 9 ∧ s.current_number = (d : Int) ∧
    s.animation_thread = .NULL ∧ animation_tids s = [] ∧
    segments_number[d]? = some (segment_levels s)) ∧
  (s.mode = ANIMATION → ∃ t, s.animation_thread = .task t ∧ animation_tids s = [t]) ∧
  (s.mode = OFF → (∀ pin ∈ segment_pins, s.gpio pin = true) ∧
    s.animation_thread = .NULL ∧ animation_tids s = [])

/-- The mode is one of the three enumerators. -/
def mode_valid (s : State) : Prop := s.mode = OFF ∨ s.mode = NUMBER ∨ s.mode = ANIMATION

/-- The state right after a successful `sevenseg_init` with all lines low before. -/
def state_initial : State := (sevenseg_init (boot (fun _ => false)) 240 none none none).2

/-- A reader that calls `device_read` with a buffer of `chunk` bytes, starting at `offset`,
until a call returns no data, at most `fuel` times. The result is the list of the chunks
delivered, the final file offset, and whether the loop ended because a call returned no
data (rather than by running out of `fuel`). -/
def read_loop (s : State) (chunk : Nat) : Nat → Int → Except Fault (List (List Nat) × Int × Bool)
  | 0, offset => .ok ([], offset, false)
  | fuel + 1, offset => do
    let r ← device_read s chunk chunk offset
    if r.ret ≤ 0 then pure ([], r.offset, true)
    else do
      let rest ← read_loop s chunk fuel r.offset
      pure (r.data :: rest.1, rest.2)

/-- The standard seven-segment glyphs of the digits 0..9, each given by the letters of the
segments that are lit. -/
def standard_glyphs : List String :=
  ["ABCDEF", "BC", "ABDEG", "ABCDG", "BCFG", "ACDFG", "ACDEFG", "ABC", "ABCDEFG", "ABCDFG"]

/-- Whether segment `i` (0 for A up to 6 for G) is lit in the standard glyph of digit `d`. -/
def lit_in_glyph (d i : Nat) : Bool :=
  (cstr (standard_glyphs.getD d "")).contains ('A'.toNat + i)

/-- Index of the segment a frame lights: the position of its first `false` entry. -/
def lit_segment (frame : List Bool) : Nat := frame.indexOf false

/-- Whether the `kthread_stop` guarded by `if (animation_thread)` is called on a pointer
that is not a pointer to a live task: an `ERR_PTR`, or a task that is gone. -/
def stop_faults (s : State) : Bool :=
  match s.animation_thread with
  | .NULL => false
  | .task t => !decide (t ∈ live_tids s)
  | .ERR_PTR _ => true

/-- States attainable from a successful `sevenseg_init` by `device_write` calls that
return, whether their `kthread_run` succeeds or fails, and `device_read` calls, interleaved
with pin writes of the two threads while they are alive. -/
inductive Attainable : State → Prop
  | init (levels : Nat → Bool) (major : Int) (hmajor : 0 ≤ major) :
      Attainable (sevenseg_init (boot levels) major none none none).2
  | write (s : State) (buffer : List Nat) (len : Nat) (run_errno : Option Nat) (r : Int)
      (s' : State) :
      Attainable s → device_write s buffer len run_errno = .ok (r, s') → Attainable s'
  | read (s : State) (cap len : Nat) (offset : Int) (r : ReadResult) :
      Attainable s → device_read s cap len offset = .ok r → Attainable r.state
  | animation_frame (s : State) (i : Nat) (s' : State) :
      Attainable s → animation_tids s ≠ [] → animation_thread_function_step s i = .ok s' →
      Attainable s'
  | dot_toggle (s : State) (value : Bool) :
      Attainable s → dot_tids s ≠ [] → Attainable (dot_blinking_thread_step s value)

/-- Consistency of the task handles with the live threads: no two live threads share an id,
`dot_thread` points to the one live dot thread, and `animation_thread` points to the one
live animation thread when it is a task pointer, no animation thread being alive
otherwise. -/
def threads_ok (s : State) : Prop :=
  (live_tids s).Nodup ∧
  (∃ t0, s.dot_thread = .task t0 ∧ dot_tids s = [t0]) ∧
  (match s.animation_thread with
    | .task t => animation_tids s = [t]
    | _ => animation_tids s = [])

/-- The mode is one of the three enumerators and, in mode `NUMBER`, `current_number` is a
digit. -/
def mode_ok (s : State) : Prop :=
  mode_valid s ∧ (s.mode = NUMBER → ∃ d : Nat, d ≤ 9 ∧ s.current_number = (d : Int))

/-- The animation handle does not point to a dot thread. -/
def dot_apart (s : State) : Bool :=
  match s.animation_thread with
  | .task t => !(dot_tids s).contains t
  | _ => true

/-- The `kthread_stop` call made by the block guarded by `if (animation_thread)`, when the
handle is a task pointer. -/
def stop_events (s : State) : List Event :=
  match s.animation_thread with
  | .task t => [.kthread_stop (.task t)]
  | _ => []

/-- The kernel calls a `device_write` started in state `s` may make: `kthread_stop` on the
animation handle, `kthread_run` of the animation thread function, and `gpio_set_value` on
one of the seven segment pins. -/
def write_event (s : State) : Event → Bool
  | .kthread_stop p => decide (p = s.animation_thread)
  | .kthread_run fn _ => decide (fn = ThreadFn.animation_thread_function)
  | .gpio_set_value pin _ => segment_pins.contains pin
  | _ => false

/-- Both task handles are absent or live: `animation_thread` is `NULL` with no animation
thread alive or points to the one live animation thread, and `dot_thread` is `NULL` with no
dot thread alive or points to the one live dot thread, which is not the animation thread. -/
def handles_live_or_absent (s : State) : Bool :=
  absent_or_live s &&
  (match s.dot_thread with
    | .NULL => dot_tids s == []
    | .task t => dot_tids s == [t] && !(animation_tids s).contains t
    | .ERR_PTR _ => false)

/-- State of `sevenseg_exit` after its two guarded `kthread_stop` calls, when both handles
are absent or live. -/
def exit_stopped (s : State) : State :=
  stopped_only (match s.dot_thread with
    | .task t => stopped s t
    | _ => s)

/-- The `kthread_stop` calls of `sevenseg_exit`, in order: dot thread, animation thread. -/
def exit_stop_events (s : State) : List Event :=
  (match s.dot_thread with
    | .task t => [.kthread_stop (.task t)]
    | _ => []) ++ stop_events s

/-- The pin writes of `sevenseg_exit`, in order: the seven segment pins, then the dot pin. -/
def exit_pin_writes : List Event :=
  segment_pins.map (fun pin => Event.gpio_set_value pin true) ++
    [Event.gpio_set_value DOT_GPIO true]

/-- The pin releases of `sevenseg_exit`, in order: the segment pins, then the dot pin. -/
def exit_pin_releases : List Event :=
  ((segment_pins ++ [ DOT_GPIO]).map
    (fun pin => [Event.gpio_unexport pin, Event.gpio_free pin])).flatten

/-- The calls with which `sevenseg_exit` removes the device, in order. -/
def exit_device_calls : List Event :=
  [.device_destroy, .class_unregister, .class_destroy, .unregister_chrdev]

/-- A state with the dot thread and the animation thread alive and the digit 8 still lit on
the segment pins. -/
def state_before_exit : State :=
  { mode := ANIMATION, dot_thread := .task 1, animation_thread := .task 2, current_number := 8,
    gpio := fun _ => false,
    kthreads := [(1, .dot_blinking_thread), (2, .animation_thread_function)], trace := [] }

/-! ## Lemmas about the kernel primitives and the pin writes -/

theorem length_seven {α : Type} (l : List α) (h : l.length = 7) :
    ∃ a b c d e f g, l = [a, b, c, d, e, f, g] := by
  match l, h with
  | [a, b, c, d, e, f, g], _ => exact ⟨a, b, c, d, e, f, g, rfl⟩

theorem set_segment_values_eq (s : State) (values : List Bool) (h : values.length = 7) :
    set_segment_values s values = .ok (drive s values) := by
  obtain ⟨a, b, c, d, e, f, g, rfl⟩ := length_seven values h
  rfl

theorem drive_levels (s : State) (values : List Bool) (h : values.length = 7) :
    segment_levels (drive s values) = values := by
  obtain ⟨a, b, c, d, e, f, g, rfl⟩ := length_seven values h
  simp [segment_levels, drive, segment_pins, gpio_set_value]

theorem drive_trace (s : State) (values : List Bool) :
    (drive s values).trace = s.trace ++ List.zipWith Event.gpio_set_value segment_pins values := by
  unfold drive
  generalize segment_pins = pins
  induction pins generalizing s values with
  | nil => simp
  | cons p ps ih =>
    cases values with
    | nil => simp
    | cons v vs =>
      simp only [List.zip_cons_cons, List.foldl_cons, List.zipWith_cons_cons]
      rw [ih]
      simp [gpio_set_value]

theorem display_number_eq (s : State) (d : Nat) (h : d ≤ 9) :
    display_number s (d : Int) = .ok (drive s (segments_number.getD d [])) := by
  interval_cases d <;> rfl


theorem foldl_gpio_fields (l : List (Nat × Bool)) (s : State) :
    let s' := l.foldl (fun st pv => gpio_set_value st pv.1 pv.2) s
    s'.mode = s.mode ∧ s'.dot_thread = s.dot_thread ∧ s'.animation_thread = s.animation_thread ∧
    s'.current_number = s.current_number ∧ s'.kthreads = s.kthreads := by
  induction l generalizing s with
  | nil => simp
  | cons x xs ih =>
    have h := ih (gpio_set_value s x.1 x.2)
    simpa [gpio_set_value] using h

theorem drive_mode (s : State) (v : List Bool) : (drive s v).mode = s.mode :=
  (foldl_gpio_fields _ s).1
theorem drive_dot_thread (s : State) (v : List Bool) : (drive s v).dot_thread = s.dot_thread :=
  (foldl_gpio_fields _ s).2.1
theorem drive_animation_thread (s : State) (v : List Bool) :
    (drive s v).animation_thread = s.animation_thread :=
  (foldl_gpio_fields _ s).2.2.1
theorem drive_current_number (s : State) (v : List Bool) :
    (drive s v).current_number = s.current_number :=
  (foldl_gpio_fields _ s).2.2.2.1
theorem drive_kthreads (s : State) (v : List Bool) : (drive s v).kthreads = s.kthreads :=
  (foldl_gpio_fields _ s).2.2.2.2

theorem drive_animation_tids (s : State) (v : List Bool) :
    animation_tids (drive s v) = animation_tids s := by
  simp [animation_tids, drive_kthreads]

theorem filter_tid_map (ks : List (Nat × ThreadFn)) (fn : ThreadFn) (t : Nat) :
    ((ks.filter (fun k => k.1 ≠ t)).filter (fun k => k.2 = fn)).map Prod.fst
      = (((ks.filter (fun k => k.2 = fn)).map Prod.fst)).filter (fun x => x ≠ t) := by
  rw [List.filter_map, List.filter_filter, List.filter_filter]
  congr 1
  apply List.filter_congr
  intro x _
  simp [Bool.and_comm]

theorem animation_tids_stopped (s : State) (t : Nat) :
    animation_tids (stopped s t) = (animation_tids s).filter (fun x => x ≠ t) := by
  simp only [animation_tids, stopped]
  exact filter_tid_map s.kthreads _ t

theorem animation_tid_live (s : State) (t : Nat) (h : t ∈ animation_tids s) : t ∈ live_tids s := by
  simp only [animation_tids, live_tids, List.mem_map, List.mem_filter] at h ⊢
  obtain ⟨k, ⟨hk, _⟩, rfl⟩ := h
  exact ⟨k, hk, rfl⟩

theorem kthread_stop_live (s : State) (t : Nat) (h : t ∈ live_tids s) :
    kthread_stop s (.task t) = .ok (stopped s t) := by
  simp [kthread_stop, h, stopped]

theorem cleared_props (s : State) (hs : absent_or_live s = true) :
    (cleared s).animation_thread = .NULL ∧ animation_tids (cleared s) = [] ∧
    (cleared s).trace = s.trace ++
      (match s.animation_thread with
        | .task t => [Event.kthread_stop (.task t)]
        | _ => []) := by
  unfold absent_or_live at hs
  cases hp : s.animation_thread with
  | NULL =>
    simp only [hp, beq_iff_eq] at hs
    simp [cleared, hp, hs]
  | task t =>
    simp only [hp, beq_iff_eq] at hs
    have h1 : cleared s = { stopped s t with animation_thread := .NULL } := by
      simp [cleared, hp]
    have h2 : animation_tids { stopped s t with animation_thread := .NULL }
        = animation_tids (stopped s t) := rfl
    rw [h1, h2, animation_tids_stopped, hs]
    simp [stopped]
  | ERR_PTR e => simp [hp] at hs

theorem isdigit_digit (d : Nat) (hd : d ≤ 9) : isdigit (48 + d) = true := by
  simp only [isdigit, Bool.and_eq_true, decide_eq_true_eq]
  constructor
  · simp
  · simp; omega

/-- For a literal without NUL bytes, `strncmp` over the literal's length returns 0 exactly
when the zero-padded message begins with the literal. -/
theorem strncmp_lit (lit p : List Nat) (n : Nat) (hlit : ∀ x ∈ lit, x ≠ 0) :
    strncmp (p ++ List.replicate n 0) lit lit.length = 0 ↔ lit <+: p := by
  induction lit generalizing p with
  | nil => simp [strncmp]
  | cons x lit ih =>
    have hx : x ≠ 0 := hlit x (by simp)
    have hl : ∀ y ∈ lit, y ≠ 0 := fun y hy => hlit y (by simp [hy])
    cases p with
    | nil =>
      have h0 : (List.replicate n 0).headD 0 = 0 := by cases n <;> simp [List.replicate]
      simp only [List.nil_append, List.length_cons, strncmp, h0, List.headD_cons]
      have : ¬ (0 = x) := fun h => hx h.symm
      simp [this, Nat.pos_of_ne_zero hx]
    | cons c p =>
      simp only [List.cons_append, List.length_cons, strncmp, List.headD_cons, List.tail_cons]
      by_cases hc : c = x
      · subst hc
        simp only [ne_eq, not_true_eq_false, if_false, hx]
        rw [ih p hl]
        simp [List.cons_prefix_cons]
      · simp only [ne_eq, hc, not_false_eq_true, if_true]
        have : ¬ (x :: lit <+: c :: p) := by
          rw [List.cons_prefix_cons]; exact fun h => hc h.1.symm
        simp only [this, iff_false]
        split <;> simp

theorem lit_off_nonzero : ∀ x ∈ lit_off, x ≠ 0 := by decide
theorem lit_animation_nonzero : ∀ x ∈ lit_animation, x ≠ 0 := by decide

theorem isdigit_o : isdigit 'o'.toNat = false := by decide
theorem isdigit_a : isdigit 'a'.toNat = false := by decide

/-- With the animation handle `NULL` or live, `device_write` never faults, and its result is
given branch by branch. -/
theorem device_write_unfold (s : State) (buffer : List Nat) (len : Nat) (run_errno : Option Nat)
    (hs : absent_or_live s = true) :
    device_write s buffer len run_errno =
      if len > 19 then .ok (-EINVAL, s)
      else
        match copy_from_user buffer len with
        | none => .ok (-EFAULT, s)
        | some data =>
          if isdigit ((msg_of data len).headD 0) then
            if (msg_of data len).headD 0 - 48 ≤ 9 then
              .ok ((len : Int), digit_state s ((msg_of data len).headD 0 - 48))
            else .ok ((len : Int), s)
          else if strncmp (msg_of data len) lit_off 3 = 0 then .ok ((len : Int), off_state s)
          else if strncmp (msg_of data len) lit_animation 9 = 0 then
            match run_errno with
            | none => .ok ((len : Int), animation_state s)
            | some errno => .ok (-(errno : Int), failed_state s errno)
          else .ok ((len : Int), s) := by
  have hclear : (if s.animation_thread ≠ .NULL then do
        let s ← kthread_stop s s.animation_thread
        pure { s with animation_thread := .NULL }
      else pure s) = Except.ok (cleared s) := by
    unfold absent_or_live at hs
    cases hp : s.animation_thread with
    | NULL => simp [cleared, hp]; rfl
    | task t =>
      simp only [hp, beq_iff_eq] at hs
      have hl : t ∈ live_tids s := animation_tid_live s t (by simp [hs])
      simp [cleared, hp, kthread_stop_live, hl]
    | ERR_PTR e => simp [hp] at hs
  have hstop : (if s.animation_thread ≠ .NULL then kthread_stop s s.animation_thread
      else pure s) = Except.ok (stopped_only s) := by
    unfold absent_or_live at hs
    cases hp : s.animation_thread with
    | NULL => simp [stopped_only, hp]; rfl
    | task t =>
      simp only [hp, beq_iff_eq] at hs
      have hl : t ∈ live_tids s := animation_tid_live s t (by simp [hs])
      simp [stopped_only, hp, kthread_stop_live, hl]
    | ERR_PTR e => simp [hp] at hs
  unfold device_write
  by_cases hlen : len > 19
  · simp [hlen]
  · simp only [hlen, if_false]
    cases hcopy : copy_from_user buffer len with
    | none => rfl
    | some data =>
      simp only [hclear, hstop]
      show _ = (if isdigit ((msg_of data len).headD 0) then _ else _)
      unfold msg_of
      generalize (data ++ List.replicate (20 - len) 0) = msg
      generalize msg.headD 0 = c
      by_cases hdig : isdigit c = true
      · have h48 : 48 ≤ c := by
          simp only [isdigit, Bool.and_eq_true, decide_eq_true_eq] at hdig
          have := hdig.1
          simp at this
          omega
        simp only [hdig, if_true]
        by_cases h9 : c - 48 ≤ 9
        · have hnum : ((c : Nat) : Int) - (('0'.toNat : Nat) : Int) = ((c - 48 : Nat) : Int) := by
            simp; omega
          have hcond : ((c : Nat) : Int) - (('0'.toNat : Nat) : Int) ≥ 0 ∧
              ((c : Nat) : Int) - (('0'.toNat : Nat) : Int) ≤ 9 := by
            rw [hnum]; constructor <;> omega
          have h57 : c ≤ 57 := by omega
          simp only [h9, hnum, if_true]
          simp [display_number_eq _ _ h9, digit_state, h57]
          rfl
        · have hcond : ¬ (((c : Nat) : Int) - (('0'.toNat : Nat) : Int) ≥ 0 ∧
              ((c : Nat) : Int) - (('0'.toNat : Nat) : Int) ≤ 9) := by
            simp; omega
          have h57 : ¬ c ≤ 57 := by omega
          simp only [h9, if_false]
          simp [h57]
          rfl
      · simp only [hdig, if_false]
        by_cases hoff : strncmp msg lit_off 3 = 0
        · simp only [hoff, if_true]
          simp [set_segment_values_eq, segments_off, off_state]
          rfl
        · simp only [hoff, if_false]
          by_cases hanim : strncmp msg lit_animation 9 = 0
          · simp only [hanim, if_true]
            cases run_errno with
            | none => rfl
            | some e => rfl
          · simp only [hanim, if_false]
            rfl

theorem copy_from_user_all (payload : List Nat) :
    copy_from_user payload payload.length = some payload := by
  simp [copy_from_user]

theorem msg_of_head (c : Nat) (rest : List Nat) (n : Nat) :
    (msg_of (c :: rest) n).headD 0 = c := rfl

theorem device_write_digit (s : State) (d : Nat) (payload : List Nat) (run_errno : Option Nat)
    (hd : d ≤ 9) (h0 : payload.head? = some ('0'.toNat + d)) (hlen : payload.length ≤ 19)
    (hs : absent_or_live s = true) :
    device_write s payload payload.length run_errno
      = .ok ((payload.length : Int), digit_state s d) := by
  rw [device_write_unfold s _ _ _ hs, copy_from_user_all]
  cases payload with
  | nil => simp at h0
  | cons c rest =>
    simp only [List.head?_cons, Option.some.injEq] at h0
    subst h0
    have h19 : ¬ (('0'.toNat + d) :: rest).length > 19 := by omega
    simp only [h19, if_false, msg_of_head]
    simp [isdigit_digit d hd, hd]

theorem device_write_off (s : State) (rest : List Nat) (run_errno : Option Nat)
    (hlen : (lit_off ++ rest).length ≤ 19) (hs : absent_or_live s = true) :
    device_write s (lit_off ++ rest) (lit_off ++ rest).length run_errno
      = .ok (((lit_off ++ rest).length : Int), off_state s) := by
  rw [device_write_unfold s _ _ _ hs, copy_from_user_all]
  have h19 : ¬ (lit_off ++ rest).length > 19 := by omega
  have hcmp : strncmp (msg_of (lit_off ++ rest) (lit_off ++ rest).length) lit_off 3 = 0 :=
    (strncmp_lit lit_off (lit_off ++ rest) _ lit_off_nonzero).2 (List.prefix_append _ _)
  have hhead : (msg_of (lit_off ++ rest) (lit_off ++ rest).length).headD 0 = 'o'.toNat := rfl
  simp only [h19, if_false, hhead, isdigit_o, hcmp, if_true, Bool.false_eq_true]

theorem device_write_animation (s : State) (rest : List Nat) (run_errno : Option Nat)
    (hlen : (lit_animation ++ rest).length ≤ 19) (hs : absent_or_live s = true) :
    device_write s (lit_animation ++ rest) (lit_animation ++ rest).length run_errno
      = match run_errno with
        | none => .ok (((lit_animation ++ rest).length : Int), animation_state s)
        | some errno => .ok (-(errno : Int), failed_state s errno) := by
  rw [device_write_unfold s _ _ _ hs, copy_from_user_all]
  have h19 : ¬ (lit_animation ++ rest).length > 19 := by omega
  have hcmp : strncmp (msg_of (lit_animation ++ rest) (lit_animation ++ rest).length)
      lit_animation 9 = 0 :=
    (strncmp_lit lit_animation (lit_animation ++ rest) _ lit_animation_nonzero).2
      (List.prefix_append _ _)
  have hoff : ¬ strncmp (msg_of (lit_animation ++ rest) (lit_animation ++ rest).length)
      lit_off 3 = 0 := by
    intro h
    have := (strncmp_lit lit_off (lit_animation ++ rest) _ lit_off_nonzero).1 h
    simp [lit_off, lit_animation, cstr] at this
  have hhead : (msg_of (lit_animation ++ rest) (lit_animation ++ rest).length).headD 0
      = 'a'.toNat := rfl
  simp only [h19, if_false, hhead, isdigit_a, hcmp, hoff, if_true, Bool.false_eq_true]

theorem device_write_too_long (s : State) (buffer : List Nat) (len : Nat)
    (run_errno : Option Nat) (h : 19 < len) :
    device_write s buffer len run_errno = .ok (-EINVAL, s) := by
  simp [device_write, h]

theorem device_write_ignored (s : State) (payload : List Nat) (run_errno : Option Nat)
    (hlen : payload.length ≤ 19)
    (hdig : ∀ c, payload.head? = some c → ¬ ('0'.toNat ≤ c ∧ c ≤ '9'.toNat))
    (hoff : ¬ lit_off <+: payload) (hanim : ¬ lit_animation <+: payload) :
    device_write s payload payload.length run_errno = .ok ((payload.length : Int), s) := by
  have h19 : ¬ payload.length > 19 := by omega
  have hc1 : ¬ strncmp (payload ++ List.replicate (20 - payload.length) 0) lit_off 3 = 0 :=
    fun h => hoff ((strncmp_lit lit_off payload _ lit_off_nonzero).1 h)
  have hc2 : ¬ strncmp (payload ++ List.replicate (20 - payload.length) 0) lit_animation 9 = 0 :=
    fun h => hanim ((strncmp_lit lit_animation payload _ lit_animation_nonzero).1 h)
  have hnum : ¬ (48 ≤ (payload ++ List.replicate (20 - payload.length) 0).headD 0 ∧
      (payload ++ List.replicate (20 - payload.length) 0).headD 0 ≤ 57) := by
    cases payload with
    | nil => simp [List.replicate]
    | cons c rest => simpa using hdig c rfl
  unfold device_write
  simp only [h19, if_false, copy_from_user_all, hc1, hc2]
  generalize (payload ++ List.replicate (20 - payload.length) 0).headD 0 = c at hnum
  by_cases hd : isdigit c = true
  · have h48 : 48 ≤ c := by
      simp only [isdigit, Bool.and_eq_true, decide_eq_true_eq] at hd
      have := hd.1
      simp at this
      omega
    have hcond : ¬ (((c : Nat) : Int) - (('0'.toNat : Nat) : Int) ≥ 0 ∧
        ((c : Nat) : Int) - (('0'.toNat : Nat) : Int) ≤ 9) := by
      simp; omega
    simp only [hd, if_true, hcond, if_false]
    rfl
  · simp only [hd, if_false]
    rfl

/-! ## Properties of the states reached by the recognised commands -/

theorem segments_number_row (d : Nat) (hd : d ≤ 9) :
    segments_number[d]? = some (segments_number.getD d []) ∧
    (segments_number.getD d []).length = 7 := by
  interval_cases d <;> exact ⟨rfl, rfl⟩

theorem digit_state_props (s : State) (d : Nat) (hd : d ≤ 9) (hs : absent_or_live s = true) :
    (digit_state s d).mode = NUMBER ∧ (digit_state s d).current_number = (d : Int) ∧
    segments_number[d]? = some (segment_levels (digit_state s d)) ∧
    (digit_state s d).animation_thread = .NULL ∧ animation_tids (digit_state s d) = [] ∧
    (digit_state s d).trace = (cleared s).trace ++
      List.zipWith Event.gpio_set_value segment_pins (segments_number.getD d []) := by
  obtain ⟨hrow, hlen⟩ := segments_number_row d hd
  obtain ⟨hc1, hc2, _⟩ := cleared_props s hs
  refine ⟨rfl, rfl, ?_, ?_, ?_, ?_⟩
  · rw [hrow]
    show some _ = some (segment_levels (drive (cleared s) (segments_number.getD d [])))
    rw [drive_levels _ _ hlen]
  · show (drive (cleared s) _).animation_thread = _
    rw [drive_animation_thread, hc1]
  · show animation_tids (drive (cleared s) _) = _
    rw [drive_animation_tids, hc2]
  · show (drive (cleared s) _).trace = _
    rw [drive_trace]

theorem off_state_props (s : State) (hs : absent_or_live s = true) :
    (off_state s).mode = OFF ∧ (off_state s).current_number = s.current_number ∧
    segment_levels (off_state s) = segments_off ∧
    (off_state s).animation_thread = .NULL ∧ animation_tids (off_state s) = [] ∧
    (off_state s).trace = (cleared s).trace ++
      List.zipWith Event.gpio_set_value segment_pins segments_off := by
  obtain ⟨hc1, hc2, _⟩ := cleared_props s hs
  refine ⟨rfl, ?_, ?_, ?_, ?_, ?_⟩
  · show (drive (cleared s) _).current_number = _
    rw [drive_current_number]
    unfold cleared
    cases s.animation_thread <;> rfl
  · show segment_levels (drive (cleared s) segments_off) = _
    rw [drive_levels (cleared s) segments_off rfl]
  · show (drive (cleared s) _).animation_thread = _
    rw [drive_animation_thread, hc1]
  · show animation_tids (drive (cleared s) _) = _
    rw [drive_animation_tids, hc2]
  · show (drive (cleared s) _).trace = _
    rw [drive_trace]

theorem stopped_only_props (s : State) (hs : absent_or_live s = true) :
    animation_tids (stopped_only s) = [] ∧
    (stopped_only s).mode = s.mode ∧ (stopped_only s).current_number = s.current_number ∧
    (stopped_only s).gpio = s.gpio ∧ (stopped_only s).dot_thread = s.dot_thread ∧
    (stopped_only s).trace = s.trace ++
      (match s.animation_thread with
        | .task t => [Event.kthread_stop (.task t)]
        | _ => []) := by
  unfold absent_or_live at hs
  cases hp : s.animation_thread with
  | NULL =>
    simp only [hp, beq_iff_eq] at hs
    simp [stopped_only, hp, hs]
  | task t =>
    simp only [hp, beq_iff_eq] at hs
    have h1 : stopped_only s = stopped s t := by simp [stopped_only, hp]
    rw [h1, animation_tids_stopped, hs]
    simp [stopped]
  | ERR_PTR e => simp [hp] at hs

theorem animation_tids_append (s : State) (ks : List (Nat × ThreadFn)) (tr : List Event) :
    animation_tids { s with kthreads := s.kthreads ++ ks, trace := tr }
      = animation_tids s ++
        (ks.filter (fun k => k.2 = ThreadFn.animation_thread_function)).map Prod.fst := by
  simp [animation_tids]

theorem animation_state_props (s : State) (hs : absent_or_live s = true) :
    (animation_state s).mode = ANIMATION ∧
    (animation_state s).current_number = s.current_number ∧
    (animation_state s).gpio = s.gpio ∧
    (animation_state s).animation_thread = .task (fresh_tid (stopped_only s)) ∧
    animation_tids (animation_state s) = [fresh_tid (stopped_only s)] ∧
    (animation_state s).trace = (stopped_only s).trace ++
      [Event.kthread_run .animation_thread_function (.task (fresh_tid (stopped_only s)))] := by
  obtain ⟨h1, _, h3, h4, _, _⟩ := stopped_only_props s hs
  refine ⟨rfl, h3, h4, rfl, ?_, rfl⟩
  have h5 := animation_tids_append (stopped_only s)
    [(fresh_tid (stopped_only s), ThreadFn.animation_thread_function)]
    ((stopped_only s).trace ++
      [Event.kthread_run .animation_thread_function (.task (fresh_tid (stopped_only s)))])
  rw [h1] at h5
  simpa using h5

theorem failed_state_props (s : State) (errno : Nat) (hs : absent_or_live s = true) :
    (failed_state s errno).mode = s.mode ∧
    (failed_state s errno).current_number = s.current_number ∧
    (failed_state s errno).gpio = s.gpio ∧
    (failed_state s errno).animation_thread = .ERR_PTR errno ∧
    animation_tids (failed_state s errno) = [] ∧
    (failed_state s errno).trace = (stopped_only s).trace ++
      [Event.kthread_run .animation_thread_function (.ERR_PTR errno)] := by
  obtain ⟨h1, h2, h3, h4, _, _⟩ := stopped_only_props s hs
  exact ⟨h2, h3, h4, rfl, h1, rfl⟩

/-! ## The write commands -/

/-- Claim C1: for a digit `d` in 0..9, a prior state whose animation task is absent or live,
and a payload of at most 19 bytes whose first byte is `'0' + d`, `device_write` returns the
payload length and ends in `mode = NUMBER`, `current_number = d`, the seven segment pins at
`segments_number[d]` and no animation task running. The pins are written by
`display_number` from a state `s1` in which the previous task is already stopped and the
handle cleared: the only call before the seven pin writes is the `kthread_stop`, if any. -/
theorem digit_write_sets_number (s : State) (d : Nat) (payload : List Nat)
    (run_errno : Option Nat) (hd : d ≤ 9) (h0 : payload.head? = some ('0'.toNat + d))
    (hlen : payload.length ≤ 19) (hs : absent_or_live s = true) :
    ∃ s1 s2 s',
      device_write s payload payload.length run_errno = .ok ((payload.length : Int), s') ∧
      s'.mode = NUMBER ∧ s'.current_number = (d : Int) ∧
      segments_number[d]? = some (segment_levels s') ∧
      s'.animation_thread = .NULL ∧ animation_tids s' = [] ∧
      s1.animation_thread = .NULL ∧ animation_tids s1 = [] ∧
      s1.trace = s.trace ++
        (match s.animation_thread with
          | .task t => [Event.kthread_stop (.task t)]
          | _ => []) ∧
      display_number s1 (d : Int) = .ok s2 ∧
      s2.trace = s1.trace ++ List.zipWith Event.gpio_set_value segment_pins (segment_levels s') ∧
      s' = { s2 with mode := NUMBER, current_number := (d : Int) } := by
  obtain ⟨h1, h2, h3, h4, h5, h6⟩ := digit_state_props s d hd hs
  obtain ⟨hc1, hc2, hc3⟩ := cleared_props s hs
  obtain ⟨hrow, _⟩ := segments_number_row d hd
  refine ⟨cleared s, drive (cleared s) (segments_number.getD d []), digit_state s d,
    device_write_digit s d payload run_errno hd h0 hlen hs, h1, h2, h3, h4, h5, hc1, hc2, hc3,
    display_number_eq _ d hd, ?_, rfl⟩
  rw [hrow] at h3
  rw [← Option.some.inj h3]
  exact drive_trace _ _

/-- Witness of C1: the payload `"5\n"` sent while the animation runs. -/
theorem digit_write_sets_number_witness :
    ∃ s', device_write state_animating [53, 10] 2 none = .ok (2, s') ∧
      s'.mode = NUMBER ∧ s'.current_number = 5 ∧
      segment_levels s' = [false, true, false, false, true, false, false] ∧
      s'.animation_thread = .NULL ∧ animation_tids s' = [] ∧
      s'.trace = Event.kthread_stop (.task 2) ::
        List.zipWith Event.gpio_set_value segment_pins (segment_levels s') := by
  obtain ⟨s1, s2, s', h1, h2, h3, h4, h5, h6, _, _, h9, _, h11, h12⟩ :=
    digit_write_sets_number state_animating 5 [53, 10] none (by decide) (by decide) (by decide)
      (by decide)
  refine ⟨s', h1, h2, h3, ?_, h5, h6, ?_⟩
  · have : segments_number[5]? = some [false, true, false, false, true, false, false] := rfl
    rw [this] at h4
    exact (Option.some.inj h4).symm
  · have : s'.trace = s2.trace := by rw [h12]
    rw [this, h11, h9]
    rfl

/-- Claim C2: for every prior state whose animation task is absent or live and every payload
of at most 19 bytes that begins with `"off"`, `device_write` returns the payload length and
ends in `mode = OFF` with all seven segment pins at the inactive level `true` and no
animation task running. -/
theorem off_write_turns_display_off (s : State) (rest : List Nat) (run_errno : Option Nat)
    (hlen : (cstr "off" ++ rest).length ≤ 19) (hs : absent_or_live s = true) :
    ∃ s',
      device_write s (cstr "off" ++ rest) (cstr "off" ++ rest).length run_errno
        = .ok (((cstr "off" ++ rest).length : Int), s') ∧
      s'.mode = OFF ∧ (∀ pin ∈ segment_pins, s'.gpio pin = true) ∧
      s'.animation_thread = .NULL ∧ animation_tids s' = [] := by
  obtain ⟨h1, _, h3, h4, h5, _⟩ := off_state_props s hs
  refine ⟨off_state s, device_write_off s rest run_errno hlen hs, h1, ?_, h4, h5⟩
  simpa [segment_levels, segment_pins, segments_off] using h3

/-- Witness of C2: the payload `"off\n"` sent while the animation runs. -/
theorem off_write_turns_display_off_witness :
    ∃ s', device_write state_animating (cstr "off" ++ [10]) 4 none = .ok (4, s') ∧
      s'.mode = OFF ∧ (∀ pin ∈ segment_pins, s'.gpio pin = true) ∧
      s'.animation_thread = .NULL ∧ animation_tids s' = [] :=
  off_write_turns_display_off state_animating [10] none (by decide) (by decide)

/-- Claim C3: for every prior state whose animation task is absent or live (at most one live
animation task) and every payload of at most 19 bytes that begins with `"animation"`, a
`device_write` whose `kthread_run` succeeds returns the payload length, sets
`mode = ANIMATION` and leaves exactly one animation task running, the previous one having
been stopped before the new one is started; a second `animation` command right after it
again leaves exactly one animation task running. -/
theorem animation_write_runs_one_task (s : State) (rest rest2 : List Nat)
    (hlen : (cstr "animation" ++ rest).length ≤ 19)
    (hlen2 : (cstr "animation" ++ rest2).length ≤ 19) (hs : absent_or_live s = true) :
    ∃ s1 t1 s2 t2,
      device_write s (cstr "animation" ++ rest) (cstr "animation" ++ rest).length none
        = .ok (((cstr "animation" ++ rest).length : Int), s1) ∧
      s1.mode = ANIMATION ∧ s1.animation_thread = .task t1 ∧ animation_tids s1 = [t1] ∧
      s1.trace = s.trace ++
        (match s.animation_thread with
          | .task t => [Event.kthread_stop (.task t)]
          | _ => []) ++
        [Event.kthread_run .animation_thread_function (.task t1)] ∧
      device_write s1 (cstr "animation" ++ rest2) (cstr "animation" ++ rest2).length none
        = .ok (((cstr "animation" ++ rest2).length : Int), s2) ∧
      s2.mode = ANIMATION ∧ s2.animation_thread = .task t2 ∧ animation_tids s2 = [t2] ∧
      s2.trace = s1.trace ++
        [Event.kthread_stop (.task t1), Event.kthread_run .animation_thread_function (.task t2)]
      := by
  obtain ⟨a1, _, _, a4, a5, a6⟩ := animation_state_props s hs
  obtain ⟨_, _, _, _, _, b6⟩ := stopped_only_props s hs
  have hs1 : absent_or_live (animation_state s) = true := by
    simp [absent_or_live, a4, a5]
  obtain ⟨c1, _, _, c4, c5, c6⟩ := animation_state_props (animation_state s) hs1
  obtain ⟨_, _, _, _, _, d6⟩ := stopped_only_props (animation_state s) hs1
  refine ⟨animation_state s, fresh_tid (stopped_only s), animation_state (animation_state s),
    fresh_tid (stopped_only (animation_state s)),
    device_write_animation s rest none hlen hs, a1, a4, a5, ?_,
    device_write_animation (animation_state s) rest2 none hlen2 hs1, c1, c4, c5, ?_⟩
  · rw [a6, b6]
  · rw [c6, d6, a4]
    simp

/-- Witness of C3: `"animation"` sent twice while an animation already runs. -/
theorem animation_write_runs_one_task_witness :
    ∃ s1 t1 s2 t2,
      device_write state_animating (cstr "animation") 9 none = .ok (9, s1) ∧
      s1.mode = ANIMATION ∧ s1.animation_thread = .task t1 ∧ animation_tids s1 = [t1] ∧
      s1.trace = [Event.kthread_stop (.task 2),
        Event.kthread_run .animation_thread_function (.task t1)] ∧
      device_write s1 (cstr "animation" ++ [10]) 10 none = .ok (10, s2) ∧
      s2.mode = ANIMATION ∧ s2.animation_thread = .task t2 ∧ animation_tids s2 = [t2] ∧
      s2.trace = s1.trace ++
        [Event.kthread_stop (.task t1), Event.kthread_run .animation_thread_function (.task t2)]
      :=
  animation_write_runs_one_task state_animating [] [10] (by decide) (by decide) (by decide)

/-- Claim C4: for every state and every payload longer than 19 bytes, whatever its content,
`device_write` returns `-EINVAL` (-22) and the state it leaves is the state it found (mode,
current_number, pins, task handle and threads), so every `device_read` gives the same result
before and after. -/
theorem oversized_write_rejected (s : State) (payload : List Nat) (run_errno : Option Nat)
    (h : 19 < payload.length) :
    ∃ s',
      device_write s payload payload.length run_errno = .ok (-22, s') ∧ s' = s ∧
      ∀ cap len offset, device_read s' cap len offset = device_read s cap len offset := by
  exact ⟨s, device_write_too_long s payload _ run_errno h, rfl, fun _ _ _ => rfl⟩

/-- Witness of C4: twenty bytes that begin with a digit, sent while the animation runs. -/
theorem oversized_write_rejected_witness :
    ∃ s',
      device_write state_animating (cstr "7 is too long a text") 20 none = .ok (-22, s') ∧
      s' = state_animating ∧
      ∀ cap len offset,
        device_read s' cap len offset = device_read state_animating cap len offset :=
  oversized_write_rejected state_animating (cstr "7 is too long a text") none (by decide)

/-- Claim C5: for every state and every payload of at most 19 bytes (the empty one and
proper prefixes such as `"of"` included) whose first byte is not an ASCII digit and which
begins with neither `"off"` nor `"animation"`, `device_write` returns the payload length and
leaves the state as it found it. -/
theorem unrecognised_write_ignored (s : State) (payload : List Nat) (run_errno : Option Nat)
    (hlen : payload.length ≤ 19)
    (hdig : ∀ c, payload.head? = some c → ¬ ('0'.toNat ≤ c ∧ c ≤ '9'.toNat))
    (hoff : ¬ cstr "off" <+: payload) (hanim : ¬ cstr "animation" <+: payload) :
    device_write s payload payload.length run_errno = .ok ((payload.length : Int), s) :=
  device_write_ignored s payload run_errno hlen hdig hoff hanim

/-- Witness of C5: the payloads `"xyz"`, `""`, `"of"` and `"animatio"` in a state that shows
the digit 3. -/
theorem unrecognised_write_ignored_witness :
    device_write state_number (cstr "xyz") 3 none = .ok (3, state_number) ∧
    device_write state_number [] 0 none = .ok (0, state_number) ∧
    device_write state_number (cstr "of") 2 none = .ok (2, state_number) ∧
    device_write state_number (cstr "animatio") 8 (some 12) = .ok (8, state_number) :=
  ⟨unrecognised_write_ignored state_number (cstr "xyz") none (by decide) (by decide)
      (by decide) (by decide),
   unrecognised_write_ignored state_number [] none (by decide) (by decide)
      (by decide) (by decide),
   unrecognised_write_ignored state_number (cstr "of") none (by decide) (by decide)
      (by decide) (by decide),
   unrecognised_write_ignored state_number (cstr "animatio") (some 12) (by decide) (by decide)
      (by decide) (by decide)⟩

/-! ## The read operation -/

theorem snprintf_fits (text : List Nat) (h : text.length ≤ 19) :
    snprintf 20 text = (text ++ List.replicate (20 - text.length) 0, (text.length : Int)) := by
  have : List.take 19 text = text := List.take_of_length_le h
  simp [snprintf, this]

/-- When the status text fits the 20-byte buffer, a read at a non-negative offset never
faults and its result is given case by case. -/
theorem device_read_eq (s : State) (cap n o : Nat) (hfit : (status_text s).length ≤ 19) :
    device_read s cap n (o : Int) =
      if (status_text s).length ≤ o then
        .ok { ret := 0, data := [], offset := (o : Int), state := s }
      else if cap < min n ((status_text s).length - o) then
        .ok { ret := -EFAULT, data := [], offset := (o : Int), state := s }
      else
        .ok { ret := ((min n ((status_text s).length - o) : Nat) : Int),
              data := ((status_text s).drop o).take (min n ((status_text s).length - o)),
              offset := ((o + min n ((status_text s).length - o) : Nat) : Int),
              state := s } := by
  unfold device_read
  rw [snprintf_fits _ hfit]
  generalize status_text s = M at hfit ⊢
  by_cases h1 : M.length ≤ o
  · have : (o : Int) ≥ (M.length : Int) := by omega
    simp [h1, this]
  · have h1' : ¬ (o : Int) ≥ (M.length : Int) := by omega
    simp only [h1', h1, if_false]
    have hk : (if (n : Int) > (M.length : Int) - (o : Int) then (M.length : Int) - (o : Int)
        else (n : Int)) = ((min n (M.length - o) : Nat) : Int) := by
      split <;> omega
    rw [hk]
    have hb : ¬ ((o : Int) < 0 ∨ (o : Int) + ((min n (M.length - o) : Nat) : Int) > 20) := by
      omega
    simp only [hb, if_false, Int.toNat_ofNat, gt_iff_lt]
    have hdata : List.take (min n (M.length - o))
        (List.drop o (M ++ List.replicate (20 - M.length) 0))
        = List.take (min n (M.length - o)) (List.drop o M) := by
      rw [List.drop_append_of_le_length (by omega)]
      rw [List.take_append_of_le_length (by simp)]
    by_cases h2 : cap < min n (M.length - o)
    · simp only [h2, if_true]
    · simp only [h2, if_false, hdata]
      congr 2

theorem fmt_d_digit (d : Nat) (hd : d ≤ 9) : fmt_d (d : Int) = ['0'.toNat + d] := by
  interval_cases d <;> rfl

theorem status_text_number (s : State) (d : Nat) (hd : d ≤ 9) (hm : s.mode = NUMBER)
    (hc : s.current_number = (d : Int)) :
    status_text s = cstr "Number: " ++ ['0'.toNat + d] ++ cstr "\n" := by
  simp [status_text, hm, hc, fmt_d_digit d hd, NUMBER, OFF]

theorem status_text_off (s : State) (hm : s.mode = OFF) : status_text s = cstr "Off\n" := by
  simp [status_text, hm]

theorem status_text_animation (s : State) (hm : s.mode = ANIMATION) :
    status_text s = cstr "Animation\n" := by
  simp [status_text, hm, ANIMATION, OFF, NUMBER]

/-- A read at offset 0 that asks for at least 19 bytes into a buffer that can take them
delivers the whole status text. -/
theorem device_read_whole (s : State) (cap n : Nat) (M : List Nat) (hM : status_text s = M)
    (hpos : 0 < M.length) (hfit : M.length ≤ 19) (hn : 19 ≤ n) (hcap : n ≤ cap) :
    device_read s cap n 0
      = .ok { ret := (M.length : Int), data := M, offset := (M.length : Int), state := s } := by
  have h := device_read_eq s cap n 0 (by rw [hM]; exact hfit)
  rw [hM] at h
  have h1 : ¬ M.length ≤ 0 := by omega
  have h2 : min n (M.length - 0) = M.length := by simp; omega
  have h3 : ¬ cap < M.length := by omega
  simp only [h1, if_false, h2, h3, List.drop_zero, List.take_length, Nat.zero_add] at h
  exact h

theorem digit_state_absent (s : State) (d : Nat) (hd : d ≤ 9) (hs : absent_or_live s = true) :
    absent_or_live (digit_state s d) = true := by
  obtain ⟨_, _, _, h4, h5, _⟩ := digit_state_props s d hd hs
  simp [absent_or_live, h4, h5]

theorem digit_then_read (s : State) (d : Nat) (tail : List Nat) (cap n : Nat)
    (run_errno : Option Nat) (hd : d ≤ 9)
    (hlen : tail.length + 1 ≤ 19) (hs : absent_or_live s = true) (hn : 19 ≤ n) (hcap : n ≤ cap) :
    device_write s (('0'.toNat + d) :: tail) (tail.length + 1) run_errno
      = .ok (((tail.length + 1 : Nat) : Int), digit_state s d) ∧
    device_read (digit_state s d) cap n 0
      = .ok { ret := 10, data := cstr "Number: " ++ ['0'.toNat + d] ++ cstr "\n", offset := 10,
              state := digit_state s d } := by
  constructor
  · exact device_write_digit s d (('0'.toNat + d) :: tail) run_errno hd rfl hlen hs
  · obtain ⟨h1, h2, _⟩ := digit_state_props s d hd hs
    have hl : (cstr "Number: " ++ ['0'.toNat + d] ++ cstr "\n").length = 10 := rfl
    have h := device_read_whole _ cap n _ (status_text_number _ d hd h1 h2)
      (by rw [hl]; decide) (by rw [hl]; decide) hn hcap
    rw [hl] at h
    exact h

theorem digits_round_trip_eq (tail : List Nat) (cap n : Nat) (hlen : tail.length + 1 ≤ 19)
    (hn : 19 ≤ n) (hcap : n ≤ cap) (ds : List Nat) :
    ∀ s : State, absent_or_live s = true → (∀ d ∈ ds, d ≤ 9) →
      digits_round_trip s tail cap n ds
        = .ok (ds.map (fun d => cstr "Number: " ++ ['0'.toNat + d] ++ cstr "\n")) := by
  induction ds with
  | nil => intro s _ _; rfl
  | cons d ds ih =>
    intro s hs hds
    have hd : d ≤ 9 := hds d (by simp)
    obtain ⟨hw, hr⟩ := digit_then_read s d tail cap n none hd hlen hs hn hcap
    have ih2 := ih (digit_state s d) (digit_state_absent s d hd hs)
      (fun x hx => hds x (by simp [hx]))
    simp only [digits_round_trip, hw, bind, Except.bind, hr, ih2, List.map_cons]
    rfl

/-- Claim C6: write-then-read round trip. From every prior state whose animation task is
absent or live (so also while an animation runs), every `digit d` write (d in 0..9, any
payload of at most 19 bytes that begins with the digit) followed by a `device_read` at
offset 0 with a buffer of at least 19 bytes yields exactly `"Number: <d>\n"`; the read
yields `"Off\n"` after every `off` write (any payload of at most 19 bytes that begins with
`"off"`) and `"Animation\n"` after every `animation` write (any payload of at most 19 bytes
that begins with `"animation"`) whose task start succeeds; and sending the digits
0, 1, ..., 9 in sequence, reading after each, reports the matching digit every time. -/
theorem write_read_round_trip (s : State) (d : Nat) (tail tail_off tail_anim : List Nat)
    (cap n : Nat) (run_errno : Option Nat) (hd : d ≤ 9)
    (hlen : (('0'.toNat + d) :: tail).length ≤ 19)
    (hlen_off : (cstr "off" ++ tail_off).length ≤ 19)
    (hlen_anim : (cstr "animation" ++ tail_anim).length ≤ 19)
    (hs : absent_or_live s = true) (hn : 19 ≤ n) (hcap : n ≤ cap) :
    (∃ s',
      device_write s (('0'.toNat + d) :: tail) (('0'.toNat + d) :: tail).length run_errno
        = .ok (((('0'.toNat + d) :: tail).length : Int), s') ∧
      device_read s' cap n 0
        = .ok { ret := 10, data := cstr "Number: " ++ ['0'.toNat + d] ++ cstr "\n",
                offset := 10, state := s' }) ∧
    (∃ s',
      device_write s (cstr "off" ++ tail_off) (cstr "off" ++ tail_off).length run_errno
        = .ok (((cstr "off" ++ tail_off).length : Int), s') ∧
      device_read s' cap n 0
        = .ok { ret := 4, data := cstr "Off\n", offset := 4, state := s' }) ∧
    (∃ s',
      device_write s (cstr "animation" ++ tail_anim) (cstr "animation" ++ tail_anim).length none
        = .ok (((cstr "animation" ++ tail_anim).length : Int), s') ∧
      device_read s' cap n 0
        = .ok { ret := 10, data := cstr "Animation\n", offset := 10, state := s' }) ∧
    digits_round_trip s tail cap n [0, 1, 2, 3, 4, 5, 6, 7, 8, 9]
      = .ok ([0, 1, 2, 3, 4, 5, 6, 7, 8, 9].map
          (fun k => cstr "Number: " ++ ['0'.toNat + k] ++ cstr "\n")) := by
  have hl1 : tail.length + 1 ≤ 19 := by simpa using hlen
  refine ⟨⟨digit_state s d, ?_⟩, ⟨off_state s, ?_, ?_⟩, ⟨animation_state s, ?_, ?_⟩, ?_⟩
  · exact digit_then_read s d tail cap n run_errno hd hl1 hs hn hcap
  · exact device_write_off s tail_off run_errno hlen_off hs
  · exact device_read_whole _ cap n _ (status_text_off _ (off_state_props s hs).1)
      (by decide) (by decide) hn hcap
  · exact device_write_animation s tail_anim none hlen_anim hs
  · exact device_read_whole _ cap n _ (status_text_animation _ (animation_state_props s hs).1)
      (by decide) (by decide) hn hcap
  · exact digits_round_trip_eq tail cap n hl1 hn hcap _ s hs (by decide)

/-- Witness of C6: while the animation runs, a 19-byte digit payload, a 19-byte `off`
payload and a 19-byte `animation` payload, each read back with a 19-byte buffer, and the
digits 0..9, each followed by the same 18 further bytes, read back in turn. -/
theorem write_read_round_trip_witness :
    (∃ s',
      device_write state_animating (cstr "7 seven, padded up.") 19 none = .ok (19, s') ∧
      device_read s' 19 19 0
        = .ok { ret := 10, data := cstr "Number: 7\n", offset := 10, state := s' }) ∧
    (∃ s',
      device_write state_animating (cstr "off, padded to 19..") 19 none = .ok (19, s') ∧
      device_read s' 19 19 0
        = .ok { ret := 4, data := cstr "Off\n", offset := 4, state := s' }) ∧
    (∃ s',
      device_write state_animating (cstr "animation, 19 bytes") 19 none = .ok (19, s') ∧
      device_read s' 19 19 0
        = .ok { ret := 10, data := cstr "Animation\n", offset := 10, state := s' }) ∧
    digits_round_trip state_animating (cstr " seven, padded up.") 19 19
        [0, 1, 2, 3, 4, 5, 6, 7, 8, 9]
      = .ok [cstr "Number: 0\n", cstr "Number: 1\n", cstr "Number: 2\n", cstr "Number: 3\n",
             cstr "Number: 4\n", cstr "Number: 5\n", cstr "Number: 6\n", cstr "Number: 7\n",
             cstr "Number: 8\n", cstr "Number: 9\n"] :=
  write_read_round_trip state_animating 7 (cstr " seven, padded up.") (cstr ", padded to 19..")
    (cstr ", 19 bytes") 19 19 none (by decide) (by decide) (by decide) (by decide) (by decide)
    (by decide) (by decide)

/-- Claim C7, the code at the failing input. The state after a successful `sevenseg_init`
and a successful `animation` write is attainable and has mode `ANIMATION`, the handle
`task 2` and the animation thread 2 alive. There an `animation` write whose `kthread_run`
fails with ENOMEM (12) returns -12, and the state it leaves is not the one it found: the
animation thread has been stopped and none runs, the handle holds `ERR_PTR(-12)`, and the
mode is still `ANIMATION`, so the mode invariant is broken in a state that is attainable.
Sent right after initialisation (mode `OFF`, handle `NULL`), the same write leaves
`ERR_PTR(-12)` in the handle. -/
theorem failed_start_breaks_mode_invariant :
    Attainable (animation_state state_initial) ∧
    (animation_state state_initial).mode = ANIMATION ∧
    (animation_state state_initial).animation_thread = .task 2 ∧
    animation_tids (animation_state state_initial) = [2] ∧
    (∃ s',
      device_write (animation_state state_initial) (cstr "animation") 9 (some 12)
        = .ok (-12, s') ∧
      Attainable s' ∧ s'.mode = ANIMATION ∧ animation_tids s' = [] ∧
      s'.animation_thread = .ERR_PTR 12 ∧ ¬ mode_invariant s') ∧
    (∃ s',
      device_write state_initial (cstr "animation") 9 (some 12) = .ok (-12, s') ∧
      Attainable s' ∧ state_initial.mode = OFF ∧ s'.mode = OFF ∧
      state_initial.animation_thread = .NULL ∧ s'.animation_thread = .ERR_PTR 12) := by
  have h0 : Attainable state_initial := Attainable.init (fun _ => false) 240 (by decide)
  have hw1 := device_write_animation state_initial [] none (by decide) (by decide)
  have h1 : Attainable (animation_state state_initial) :=
    Attainable.write state_initial (cstr "animation") 9 none 9 _ h0 hw1
  have hw2 := device_write_animation (animation_state state_initial) [] (some 12) (by decide)
    (by decide)
  have hw3 := device_write_animation state_initial [] (some 12) (by decide) (by decide)
  refine ⟨h1, rfl, rfl, rfl,
    ⟨failed_state (animation_state state_initial) 12, hw2,
      Attainable.write _ (cstr "animation") 9 (some 12) (-12) _ h1 hw2, rfl, rfl, rfl, ?_⟩,
    ⟨failed_state state_initial 12, hw3,
      Attainable.write _ (cstr "animation") 9 (some 12) (-12) _ h0 hw3, rfl, rfl, rfl, rfl⟩⟩
  intro hinv
  obtain ⟨t, ht, _⟩ := hinv.2.1 rfl
  have hptr : (failed_state (animation_state state_initial) 12).animation_thread
      = .ERR_PTR 12 := rfl
  rw [hptr] at ht
  cases ht

/-- Claim C8, the code at the failing input: after an `animation` write whose `kthread_run`
failed with ENOMEM, `animation_thread` holds `ERR_PTR(-12)`, which is not `NULL`, so the
next `digit`, `off` or `animation` write and `sevenseg_exit` all call `kthread_stop` on that
error pointer; the digit write does not reach `display_number`. -/
theorem stop_called_on_error_pointer :
    ∃ s',
      device_write state_number (cstr "animation") 9 (some 12) = .ok (-12, s') ∧
      s'.animation_thread = .ERR_PTR 12 ∧
      device_write s' (cstr "5") 1 none = .error (.bad_task_pointer (.ERR_PTR 12)) ∧
      device_write s' (cstr "off") 3 none = .error (.bad_task_pointer (.ERR_PTR 12)) ∧
      device_write s' (cstr "animation") 9 none = .error (.bad_task_pointer (.ERR_PTR 12)) ∧
      sevenseg_exit s' = .error (.bad_task_pointer (.ERR_PTR 12)) :=
  ⟨failed_state state_number 12,
    device_write_animation state_number [] (some 12) (by decide) (by decide),
    rfl, rfl, rfl, rfl, rfl⟩

/-! ## Reachable states and the mode invariant -/

theorem invariant_absent_or_live (s : State) (hv : mode_valid s) (hi : mode_invariant s) :
    absent_or_live s = true := by
  obtain ⟨h1, h2, h3⟩ := hi
  rcases hv with h | h | h
  · obtain ⟨_, a, b⟩ := h3 h
    simp [absent_or_live, a, b]
  · obtain ⟨d, _, _, a, b, _⟩ := h1 h
    simp [absent_or_live, a, b]
  · obtain ⟨t, a, b⟩ := h2 h
    simp [absent_or_live, a, b]

theorem device_write_cases (s : State) (buffer : List Nat) (len : Nat) (r : Int) (s' : State)
    (hs : absent_or_live s = true) (h : device_write s buffer len none = .ok (r, s')) :
    s' = s ∨ (∃ d, d ≤ 9 ∧ s' = digit_state s d) ∨ s' = off_state s ∨ s' = animation_state s := by
  rw [device_write_unfold s buffer len none hs] at h
  split at h
  · simp only [Except.ok.injEq, Prod.mk.injEq] at h
    exact Or.inl h.2.symm
  · split at h
    · simp only [Except.ok.injEq, Prod.mk.injEq] at h
      exact Or.inl h.2.symm
    · split at h
      · split at h
        · rename_i h9
          simp only [Except.ok.injEq, Prod.mk.injEq] at h
          exact Or.inr (Or.inl ⟨_, h9, h.2.symm⟩)
        · simp only [Except.ok.injEq, Prod.mk.injEq] at h
          exact Or.inl h.2.symm
      · split at h
        · simp only [Except.ok.injEq, Prod.mk.injEq] at h
          exact Or.inr (Or.inr (Or.inl h.2.symm))
        · split at h
          · simp only [Except.ok.injEq, Prod.mk.injEq] at h
            exact Or.inr (Or.inr (Or.inr h.2.symm))
          · simp only [Except.ok.injEq, Prod.mk.injEq] at h
            exact Or.inl h.2.symm

theorem device_read_state (s : State) (cap len : Nat) (offset : Int) (r : ReadResult)
    (h : device_read s cap len offset = .ok r) : r.state = s := by
  unfold device_read at h
  simp only at h
  repeat' split at h
  all_goals first | (cases h; rfl) | cases h

theorem init_state_props (levels : Nat → Bool) (major : Int) (hmajor : 0 ≤ major) :
    let s := (sevenseg_init (boot levels) major none none none).2
    s.mode = OFF ∧ (∀ pin ∈ segment_pins, s.gpio pin = true) ∧
    s.animation_thread = .NULL ∧ animation_tids s = [] := by
  have hm : ¬ major < 0 := by omega
  simp only [sevenseg_init, hm, if_false]
  refine ⟨rfl, ?_, rfl, rfl⟩
  intro pin hpin
  simp only [segment_pins, List.mem_cons, List.mem_singleton, List.not_mem_nil, or_false] at hpin
  rcases hpin with h | h | h | h | h | h | h <;> subst h <;> rfl

theorem animation_frame_length : ∀ frame ∈ segments_animation, frame.length = 7 := by decide

theorem animation_step_eq (s : State) (i : Nat) (s' : State)
    (h : animation_thread_function_step s i = .ok s') :
    ∃ frame, s' = drive s frame := by
  unfold animation_thread_function_step at h
  split at h
  · rename_i frame hf
    have hlen : frame.length = 7 :=
      animation_frame_length frame (List.getElem?_mem hf)
    rw [set_segment_values_eq s frame hlen] at h
    exact ⟨frame, (Except.ok.inj h).symm⟩
  · cases h

theorem reachable_inv (s : State) (h : Reachable s) : mode_valid s ∧ mode_invariant s := by
  induction h with
  | init levels major hmajor =>
    obtain ⟨h1, h2, h3, h4⟩ := init_state_props levels major hmajor
    refine ⟨Or.inl h1, ?_, ?_, ?_⟩
    · intro h; rw [h1] at h; cases h
    · intro h; rw [h1] at h; cases h
    · intro _; exact ⟨h2, h3, h4⟩
  | write s buffer len r s' _ hw ih =>
    have hs := invariant_absent_or_live s ih.1 ih.2
    rcases device_write_cases s buffer len r s' hs hw with h | ⟨d, hd, h⟩ | h | h
    · rw [h]; exact ih
    · subst h
      obtain ⟨h1, h2, h3, h4, h5, _⟩ := digit_state_props s d hd hs
      refine ⟨Or.inr (Or.inl h1), ?_, ?_, ?_⟩
      · intro _; exact ⟨d, hd, h2, h4, h5, h3⟩
      · intro h; rw [h1] at h; cases h
      · intro h; rw [h1] at h; cases h
    · subst h
      obtain ⟨h1, _, h3, h4, h5, _⟩ := off_state_props s hs
      refine ⟨Or.inl h1, ?_, ?_, ?_⟩
      · intro h; rw [h1] at h; cases h
      · intro h; rw [h1] at h; cases h
      · intro _
        refine ⟨?_, h4, h5⟩
        simpa [segment_levels, segment_pins, segments_off] using h3
    · subst h
      obtain ⟨h1, _, _, h4, h5, _⟩ := animation_state_props s hs
      refine ⟨Or.inr (Or.inr h1), ?_, ?_, ?_⟩
      · intro h; rw [h1] at h; cases h
      · intro _; exact ⟨_, h4, h5⟩
      · intro h; rw [h1] at h; cases h
  | read s cap len offset r _ hr ih =>
    rw [device_read_state s cap len offset r hr]; exact ih
  | animation_frame s i s' _ hrun hstep ih =>
    obtain ⟨frame, rfl⟩ := animation_step_eq s i s' hstep
    obtain ⟨hv, h1, h2, h3⟩ := ih
    have hmode : s.mode = ANIMATION := by
      rcases hv with h | h | h
      · exact absurd (h3 h).2.2 hrun
      · obtain ⟨_, _, _, _, h5, _⟩ := h1 h
        exact absurd h5 hrun
      · exact h
    have hm' : (drive s frame).mode = ANIMATION := by rw [drive_mode, hmode]
    refine ⟨Or.inr (Or.inr hm'), ?_, ?_, ?_⟩
    · intro h; rw [hm'] at h; cases h
    · intro _
      obtain ⟨t, a, b⟩ := h2 hmode
      exact ⟨t, by rw [drive_animation_thread, a], by rw [drive_animation_tids, b]⟩
    · intro h; rw [hm'] at h; cases h
  | dot_toggle s value _ _ ih =>
    obtain ⟨hv, h1, h2, h3⟩ := ih
    have hlev : segment_levels (dot_blinking_thread_step s value) = segment_levels s := by
      simp [segment_levels, dot_blinking_thread_step, gpio_set_value, segment_pins, DOT_GPIO]
    refine ⟨hv, ?_, h2, ?_⟩
    · intro h
      obtain ⟨d, a, b, c, e, f⟩ := h1 h
      exact ⟨d, a, b, c, e, by rw [hlev]; exact f⟩
    · intro h
      obtain ⟨a, b, c⟩ := h3 h
      refine ⟨?_, b, c⟩
      intro pin hpin
      have hne : pin ≠ DOT_GPIO := by
        intro hp; rw [hp] at hpin; revert hpin; decide
      have := a pin hpin
      simpa [dot_blinking_thread_step, gpio_set_value, hne] using this

/-- Claim C9: mode invariant. In the state after a successful `sevenseg_init` and in every
state reachable from it by `device_write` calls whose task start succeeds and `device_read`
calls (also interleaved with pin writes of the running threads): (i) `mode = NUMBER` implies
that `current_number` is a digit `d` in 0..9, no animation task is running and the segment
pins show `segments_number[d]`; (ii) `mode = ANIMATION` implies that exactly one animation
task is running, the one `animation_thread` points to; (iii) `mode = OFF` implies that all
seven segment pins are at the inactive level `true` and no animation task is running. -/
theorem mode_invariant_reachable (s : State) (h : Reachable s) :
    (s.mode = NUMBER → ∃ d : Nat, d ≤ 9 ∧ s.current_number = (d : Int) ∧
      s.animation_thread = .NULL ∧ animation_tids s = [] ∧
      segments_number[d]? = some (segment_levels s)) ∧
    (s.mode = ANIMATION → ∃ t, s.animation_thread = .task t ∧ animation_tids s = [t]) ∧
    (s.mode = OFF → (∀ pin ∈ segment_pins, s.gpio pin = true) ∧
      s.animation_thread = .NULL ∧ animation_tids s = []) :=
  (reachable_inv s h).2

/-- Witness of C9: the state reached from initialisation by the writes `"animation"` and
`"5"` is reachable and satisfies the invariant. -/
theorem mode_invariant_reachable_witness :
    Reachable (digit_state (animation_state state_initial) 5) ∧
    mode_invariant (digit_state (animation_state state_initial) 5) :=
  have h0 : Reachable state_initial := Reachable.init (fun _ => false) 240 (by decide)
  have h1 : Reachable (animation_state state_initial) :=
    Reachable.write state_initial (cstr "animation") 9 9 _ h0
      (device_write_animation state_initial [] none (by decide) (by decide))
  have h2 : Reachable (digit_state (animation_state state_initial) 5) :=
    Reachable.write (animation_state state_initial) (cstr "5") 1 1 _ h1
      (device_write_digit (animation_state state_initial) 5 (cstr "5") none (by decide)
        (by decide) (by decide) (by decide))
  ⟨h2, mode_invariant_reachable _ h2⟩

/-! ## Partial reads -/

theorem read_loop_eq (s : State) (chunk : Nat) (hchunk : 0 < chunk)
    (hfit : (status_text s).length ≤ 19) (fuel : Nat) :
    ∀ o : Nat, o ≤ (status_text s).length → (status_text s).length - o < fuel →
      ∃ chunks, read_loop s chunk fuel (o : Int)
          = .ok (chunks, ((status_text s).length : Int), true) ∧
        chunks.flatten = (status_text s).drop o := by
  induction fuel with
  | zero => intro o _ h; omega
  | succ fuel ih =>
    intro o ho hfuel
    have hr := device_read_eq s chunk chunk o hfit
    by_cases hend : (status_text s).length ≤ o
    · have : o = (status_text s).length := by omega
      simp only [hend, if_true] at hr
      refine ⟨[], ?_, ?_⟩
      · simp only [read_loop, hr, bind, Except.bind]
        simp [this, pure, Except.pure]
      · simp [List.drop_of_length_le hend]
    · have hk : ¬ chunk < min chunk ((status_text s).length - o) := by omega
      simp only [hend, hk, if_false] at hr
      have hpos : 0 < min chunk ((status_text s).length - o) := by omega
      have hle : o + min chunk ((status_text s).length - o) ≤ (status_text s).length := by omega
      obtain ⟨rest, hrest, hjoin⟩ := ih (o + min chunk ((status_text s).length - o)) hle
        (by omega)
      refine ⟨((status_text s).drop o).take (min chunk ((status_text s).length - o)) :: rest,
        ?_, ?_⟩
      · have hnot : ¬ (((min chunk ((status_text s).length - o) : Nat) : Int) ≤ 0) := by omega
        simp only [read_loop, hr, bind, Except.bind, hnot, if_false, hrest]
        rfl
      · rw [List.flatten_cons, hjoin, ← List.drop_drop, List.take_append_drop]

/-- Claim C10: partial-read contract. With the state `s` held fixed, `M` its status line and
`L` the length of `M` (`M` fitting the buffer, `L ≤ 19`): for every offset `o ≥ 0` and
requested length `n`, `device_read` returns 0, delivers nothing and leaves the offset at `o`
when `o ≥ L`; otherwise a successful read (the user buffer takes the `k = min(n, L - o)`
bytes) returns `k`, delivers exactly the bytes `M[o .. o+k)` and advances the offset to
`o + k`. Hence for every positive chunk size the reads repeated from offset 0 deliver
chunks whose concatenation is exactly `M`, the loop ends at offset `L` because a read
returned no data, and every further read at `L` returns 0. -/
theorem partial_read_contract (s : State) (hfit : (status_text s).length ≤ 19) :
    (∀ cap n o : Nat, (status_text s).length ≤ o →
      device_read s cap n (o : Int)
        = .ok { ret := 0, data := [], offset := (o : Int), state := s }) ∧
    (∀ cap n o : Nat, o < (status_text s).length →
      min n ((status_text s).length - o) ≤ cap →
      device_read s cap n (o : Int)
        = .ok { ret := ((min n ((status_text s).length - o) : Nat) : Int),
                data := ((status_text s).drop o).take (min n ((status_text s).length - o)),
                offset := ((o + min n ((status_text s).length - o) : Nat) : Int),
                state := s }) ∧
    (∀ chunk fuel : Nat, 0 < chunk → (status_text s).length < fuel →
      ∃ chunks, read_loop s chunk fuel 0
          = .ok (chunks, ((status_text s).length : Int), true) ∧
        chunks.flatten = status_text s) := by
  refine ⟨?_, ?_, ?_⟩
  · intro cap n o ho
    rw [device_read_eq s cap n o hfit]
    simp only [ho, if_true]
  · intro cap n o ho hcap
    rw [device_read_eq s cap n o hfit]
    have h1 : ¬ (status_text s).length ≤ o := by omega
    have h2 : ¬ cap < min n ((status_text s).length - o) := by omega
    simp only [h1, h2, if_false]
  · intro chunk fuel hchunk hfuel
    obtain ⟨chunks, h1, h2⟩ := read_loop_eq s chunk hchunk hfit fuel 0 (by omega) (by omega)
    exact ⟨chunks, h1, by simpa using h2⟩

/-- Witness of C10: the status line `"Number: 3\n"` read in chunks of 4 bytes. -/
theorem partial_read_contract_witness :
    device_read state_number 4 4 10
      = .ok { ret := 0, data := [], offset := 10, state := state_number } ∧
    device_read state_number 4 4 8
      = .ok { ret := 2, data := cstr "3\n", offset := 10, state := state_number } ∧
    ∃ chunks, read_loop state_number 4 11 0 = .ok (chunks, 10, true) ∧
      chunks.flatten = cstr "Number: 3\n" :=
  have h := partial_read_contract state_number (by decide)
  ⟨h.1 4 4 10 (by decide), h.2.1 4 4 8 (by decide) (by decide),
   h.2.2 4 11 (by decide) (by decide)⟩

/-! ## Further facts about initialisation and reachable states -/

/-- With every kernel call succeeding, `sevenseg_init` returns 0. -/
theorem sevenseg_init_success (levels : Nat → Bool) (major : Int) (hmajor : 0 ≤ major) :
    (sevenseg_init (boot levels) major none none none).1 = 0 := by
  have hm : ¬ major < 0 := by omega
  simp only [sevenseg_init, hm, if_false]
  rfl

/-- In every reachable state the status line fits the 20-byte buffer of `device_read`. -/
theorem reachable_status_fits (s : State) (h : Reachable s) : (status_text s).length ≤ 19 := by
  obtain ⟨hv, h1, _, _⟩ := reachable_inv s h
  rcases hv with hm | hm | hm
  · rw [status_text_off s hm]; decide
  · obtain ⟨d, hd, hc, _⟩ := h1 hm
    rw [status_text_number s d hd hm hc]
    have : (cstr "Number: " ++ ['0'.toNat + d] ++ cstr "\n").length = 10 := rfl
    rw [this]; decide
  · rw [status_text_animation s hm]; decide

/-! ## The pattern tables -/

/-- Claim C12: the digit table is the standard seven-segment font in common-anode polarity:
for every digit `d` in 0..9 and segment index `i` in 0..6 (A..G), `segments_number[d][i]` is
`false` exactly when segment `i` is lit in the standard glyph of `d` (0: ABCDEF, 1: BC,
2: ABDEG, 3: ABCDG, 4: BCFG, 5: ACDFG, 6: ACDEFG, 7: ABC, 8: ABCDEFG, 9: ABCDFG) and `true`
otherwise; the table has exactly these ten rows of seven entries; and `segments_off` is
`true` in all seven positions. -/
theorem digit_table_standard_font :
    (∀ (d : Fin 10) (i : Fin 7),
      (segments_number[d.val]?).bind (fun row => row[i.val]?)
        = some (!lit_in_glyph d.val i.val)) ∧
    segments_number
      = (List.range 10).map (fun d => (List.range 7).map (fun i => !lit_in_glyph d i)) ∧
    segments_off = List.replicate 7 true := by
  refine ⟨by decide, by decide, by decide⟩

theorem animation_step_frame (s : State) (i : Nat) (frame : List Bool)
    (h : segments_animation[i]? = some frame) :
    animation_thread_function_step s i = .ok (drive s frame) ∧
    segment_levels (drive s frame) = frame := by
  have hlen : frame.length = 7 := animation_frame_length frame (List.getElem?_mem h)
  refine ⟨?_, drive_levels s frame hlen⟩
  simp only [animation_thread_function_step, h]
  exact set_segment_values_eq s frame hlen

/-- Claim C17: every one of the eight animation frames has exactly one `false` entry among
its seven, the lit segments in frame order are A, B, G, E, D, C, G, F, any two cyclically
consecutive frames (frame 7 followed by frame 0 included) light different segments, and no
frame equals the all-off pattern or a digit pattern; so from any state each step of the
animation loop leaves segment pin levels that differ from those the previous step left. -/
theorem animation_frames_one_segment :
    segments_animation.length = 8 ∧
    (∀ frame ∈ segments_animation, frame.length = 7 ∧ frame.count false = 1) ∧
    segments_animation.map lit_segment = (cstr "ABGEDCGF").map (fun c => c - 'A'.toNat) ∧
    (∀ i : Fin 8,
      (segments_animation[i.val]?).map lit_segment
        ≠ (segments_animation[(i.val + 1) % 8]?).map lit_segment) ∧
    (∀ frame ∈ segments_animation, frame ≠ segments_off ∧ frame ∉ segments_number) ∧
    (∀ (s : State) (i : Fin 8), ∃ s1 s2,
      animation_thread_function_step s i.val = .ok s1 ∧
      animation_thread_function_step s1 ((i.val + 1) % 8) = .ok s2 ∧
      segments_animation[i.val]? = some (segment_levels s1) ∧
      segments_animation[(i.val + 1) % 8]? = some (segment_levels s2) ∧
      segment_levels s2 ≠ segment_levels s1) := by
  refine ⟨rfl, by decide, by decide, by decide, by decide, ?_⟩
  intro s i
  have hA : ∀ j : Fin 8, (segments_animation[j.val]?).isSome = true := by decide
  have hne : ∀ j : Fin 8, segments_animation[j.val]? ≠ segments_animation[(j.val + 1) % 8]? := by
    decide
  obtain ⟨f1, h1⟩ := Option.isSome_iff_exists.1 (hA i)
  obtain ⟨f2, h2⟩ := Option.isSome_iff_exists.1 (hA ⟨(i.val + 1) % 8, by omega⟩)
  obtain ⟨a1, b1⟩ := animation_step_frame s i.val f1 h1
  obtain ⟨a2, b2⟩ := animation_step_frame (drive s f1) ((i.val + 1) % 8) f2 h2
  refine ⟨drive s f1, drive (drive s f1) f2, a1, a2, by rw [b1, h1], by rw [b2]; exact h2, ?_⟩
  rw [b1, b2]
  intro h
  apply hne i
  rw [h1, h2, h]

/-! ## The write operation from an arbitrary state -/

/-- The result of `device_write` from any state, branch by branch: the only fault is the
`kthread_stop` on a bad task pointer. -/
theorem device_write_form (s : State) (buffer : List Nat) (len : Nat) (run_errno : Option Nat) :
    device_write s buffer len run_errno =
      if len > 19 then .ok (-EINVAL, s)
      else
        match copy_from_user buffer len with
        | none => .ok (-EFAULT, s)
        | some data =>
          if isdigit ((msg_of data len).headD 0) then
            if (msg_of data len).headD 0 - 48 ≤ 9 then
              if stop_faults s then .error (.bad_task_pointer s.animation_thread)
              else .ok ((len : Int), digit_state s ((msg_of data len).headD 0 - 48))
            else .ok ((len : Int), s)
          else if strncmp (msg_of data len) lit_off 3 = 0 then
            if stop_faults s then .error (.bad_task_pointer s.animation_thread)
            else .ok ((len : Int), off_state s)
          else if strncmp (msg_of data len) lit_animation 9 = 0 then
            if stop_faults s then .error (.bad_task_pointer s.animation_thread)
            else
              match run_errno with
              | none => .ok ((len : Int), animation_state s)
              | some errno => .ok (-(errno : Int), failed_state s errno)
          else .ok ((len : Int), s) := by
  have hclear : (if s.animation_thread ≠ .NULL then do
        let s ← kthread_stop s s.animation_thread
        pure { s with animation_thread := .NULL }
      else pure s) = (if stop_faults s then .error (.bad_task_pointer s.animation_thread)
        else Except.ok (cleared s)) := by
    cases hp : s.animation_thread with
    | NULL => simp [cleared, stop_faults, hp]; rfl
    | task t =>
      by_cases hl : t ∈ live_tids s
      · simp [cleared, stop_faults, hp, kthread_stop_live, hl]
      · simp [stop_faults, hp, kthread_stop, hl]
    | ERR_PTR e => simp [stop_faults, hp, kthread_stop]
  have hstop : (if s.animation_thread ≠ .NULL then kthread_stop s s.animation_thread
      else pure s) = (if stop_faults s then .error (.bad_task_pointer s.animation_thread)
        else Except.ok (stopped_only s)) := by
    cases hp : s.animation_thread with
    | NULL => simp [stopped_only, stop_faults, hp]; rfl
    | task t =>
      by_cases hl : t ∈ live_tids s
      · simp [stopped_only, stop_faults, hp, kthread_stop_live, hl]
      · simp [stop_faults, hp, kthread_stop, hl]
    | ERR_PTR e => simp [stop_faults, hp, kthread_stop]
  unfold device_write
  by_cases hlen : len > 19
  · simp [hlen]
  · simp only [hlen, if_false]
    cases hcopy : copy_from_user buffer len with
    | none => rfl
    | some data =>
      simp only [hclear, hstop]
      show _ = (if isdigit ((msg_of data len).headD 0) then _ else _)
      unfold msg_of
      generalize (data ++ List.replicate (20 - len) 0) = msg
      generalize msg.headD 0 = c
      by_cases hf : stop_faults s = true
      · simp only [hf, if_true]
        by_cases hdig : isdigit c = true
        · have h48 : 48 ≤ c := by
            simp only [isdigit, Bool.and_eq_true, decide_eq_true_eq] at hdig
            have := hdig.1
            simp at this
            omega
          simp only [hdig, if_true]
          by_cases h9 : c - 48 ≤ 9
          · have hcond : ((c : Nat) : Int) - (('0'.toNat : Nat) : Int) ≥ 0 ∧
                ((c : Nat) : Int) - (('0'.toNat : Nat) : Int) ≤ 9 := by
              simp; omega
            simp only [h9, hcond, and_self, if_true]
            rfl
          · have hcond : ¬ (((c : Nat) : Int) - (('0'.toNat : Nat) : Int) ≥ 0 ∧
                ((c : Nat) : Int) - (('0'.toNat : Nat) : Int) ≤ 9) := by
              simp; omega
            simp only [h9, hcond, if_false]
            rfl
        · simp only [hdig, if_false]
          by_cases hoff : strncmp msg lit_off 3 = 0
          · simp only [hoff, if_true]
            rfl
          · simp only [hoff, if_false]
            by_cases hanim : strncmp msg lit_animation 9 = 0
            · simp only [hanim, if_true]
              rfl
            · simp only [hanim, if_false]
              rfl
      · simp only [hf, if_false]
        by_cases hdig : isdigit c = true
        · have h48 : 48 ≤ c := by
            simp only [isdigit, Bool.and_eq_true, decide_eq_true_eq] at hdig
            have := hdig.1
            simp at this
            omega
          simp only [hdig, if_true]
          by_cases h9 : c - 48 ≤ 9
          · have hnum : ((c : Nat) : Int) - (('0'.toNat : Nat) : Int)
                = ((c - 48 : Nat) : Int) := by
              simp; omega
            have h57 : c ≤ 57 := by omega
            simp only [h9, hnum, if_true]
            simp [display_number_eq _ _ h9, digit_state, h57]
            rfl
          · have h57 : ¬ c ≤ 57 := by omega
            simp only [h9, if_false]
            simp [h57]
            rfl
        · simp only [hdig, if_false]
          by_cases hoff : strncmp msg lit_off 3 = 0
          · simp only [hoff, if_true]
            simp [set_segment_values_eq, segments_off, off_state]
            rfl
          · simp only [hoff, if_false]
            by_cases hanim : strncmp msg lit_animation 9 = 0
            · simp only [hanim, if_true]
              cases run_errno with
              | none => rfl
              | some e => rfl
            · simp only [hanim, if_false]
              rfl

theorem animation_step_in_range (s : State) (i : Nat) (hi : i < 8) :
    ∃ frame, segments_animation[i]? = some frame ∧
      animation_thread_function_step s i = .ok (drive s frame) := by
  have hA : ∀ j : Fin 8, (segments_animation[j.val]?).isSome = true := by decide
  obtain ⟨f, hf⟩ := Option.isSome_iff_exists.1 (hA ⟨i, hi⟩)
  exact ⟨f, hf, (animation_step_frame s i f hf).1⟩

theorem animation_steps_total (l : List Nat) (hl : ∀ i ∈ l, i < 8) :
    ∀ s : State, ∃ s', l.foldlM animation_thread_function_step s = .ok s' := by
  induction l with
  | nil => intro s; exact ⟨s, rfl⟩
  | cons i l ih =>
    intro s
    obtain ⟨f, _, hstep⟩ := animation_step_in_range s i (hl i (by simp))
    obtain ⟨s', hs'⟩ := ih (fun j hj => hl j (by simp [hj])) (drive s f)
    refine ⟨s', ?_⟩
    rw [List.foldlM_cons, hstep]
    exact hs'

theorem animation_pass_total (s : State) : ∃ s', animation_thread_function_pass s = .ok s' :=
  animation_steps_total (List.range 8) (fun _ hi => List.mem_range.1 hi) s

theorem display_number_out_of_range (s : State) (num : Int) (h : ¬ (0 ≤ num ∧ num ≤ 9)) :
    display_number s num = .error .out_of_bounds := by
  unfold display_number
  by_cases h0 : 0 ≤ num
  · have h10 : segments_number.length ≤ num.toNat := by
      have : segments_number.length = 10 := rfl
      omega
    simp only [h0, if_true, List.getElem?_eq_none h10]
    rfl
  · simp only [h0, if_false]
    rfl

/-- Claim C16: table lookups are always in range. With every table access modelled as
returning an `Option` and an out-of-range access as the fault `out_of_bounds`:
`display_number` faults exactly when its argument is outside 0..9, and `device_write` never
ends in that fault, whatever the state and payload, so it calls `display_number` only with
`0 ≤ num ≤ 9`; one step of the animation loop faults exactly when the frame index is
outside 0..7, and the loop of `animation_thread_function`, which uses the indices 0..7 and
the columns 0..6 of each row, never faults, for any number of rounds. -/
theorem table_lookups_in_range :
    (∀ (s : State) (buffer : List Nat) (len : Nat) (run_errno : Option Nat),
      device_write s buffer len run_errno ≠ .error .out_of_bounds) ∧
    (∀ (s : State) (num : Int),
      ((0 ≤ num ∧ num ≤ 9) → ∃ s', display_number s num = .ok s') ∧
      (¬ (0 ≤ num ∧ num ≤ 9) → display_number s num = .error .out_of_bounds)) ∧
    (∀ (s : State) (i : Nat),
      (i < 8 → ∃ s', animation_thread_function_step s i = .ok s') ∧
      (¬ i < 8 → animation_thread_function_step s i = .error .out_of_bounds)) ∧
    (∀ (s : State) (rounds : Nat), ∃ s', animation_thread_function s rounds = .ok s') := by
  refine ⟨?_, ?_, ?_, ?_⟩
  · intro s buffer len run_errno h
    rw [device_write_form] at h
    repeat' split at h
    all_goals cases h
  · intro s num
    refine ⟨?_, display_number_out_of_range s num⟩
    intro ⟨h0, h9⟩
    have hnum : num = ((num.toNat : Nat) : Int) := by omega
    rw [hnum]
    exact ⟨_, display_number_eq s num.toNat (by omega)⟩
  · intro s i
    constructor
    · intro hi
      obtain ⟨f, _, h⟩ := animation_step_in_range s i hi
      exact ⟨_, h⟩
    · intro hi
      have h8 : segments_animation.length ≤ i := by
        have : segments_animation.length = 8 := rfl
        omega
      simp only [animation_thread_function_step, List.getElem?_eq_none h8]
  · intro s rounds
    induction rounds generalizing s with
    | zero => exact ⟨s, rfl⟩
    | succ n ih =>
      obtain ⟨s1, h1⟩ := animation_pass_total s
      obtain ⟨s2, h2⟩ := ih s1
      refine ⟨s2, ?_⟩
      simp only [animation_thread_function, h1]
      exact h2

/-! ## Frame properties of the file operations -/

/-- Claim C14: a status query is read-only. For every state, offset and requested length, a
`device_read` that returns leaves the state exactly as it found it: mode, current_number,
all GPIO levels, both task handles, the live threads, and the record of kernel calls (it
writes no pin and stops or starts no task); it changes only the file offset it reports.
And it does return whenever the offset is not negative (the status text never exceeds the
20 bytes of `msg` for a 32-bit `current_number`). -/
theorem status_read_is_read_only (s : State) (cap len : Nat) (offset : Int) :
    (∀ r, device_read s cap len offset = .ok r →
      r.state.mode = s.mode ∧ r.state.current_number = s.current_number ∧
      r.state.gpio = s.gpio ∧ r.state.dot_thread = s.dot_thread ∧
      r.state.animation_thread = s.animation_thread ∧ r.state.kthreads = s.kthreads ∧
      r.state.trace = s.trace ∧ r.state = s) ∧
    (0 ≤ offset → (status_text s).length ≤ 20 →
      ∃ ret data offset', device_read s cap len offset
        = .ok { ret := ret, data := data, offset := offset', state := s }) := by
  constructor
  · intro r h
    have := device_read_state s cap len offset r h
    rw [this]
    exact ⟨rfl, rfl, rfl, rfl, rfl, rfl, rfl, rfl⟩
  · intro h0 hfit
    unfold device_read
    simp only [snprintf]
    split
    · exact ⟨_, _, _, rfl⟩
    · rename_i hlt
      have hb : ¬ (offset < 0 ∨
          offset + (if (len : Int) > ((status_text s).length : Int) - offset
            then ((status_text s).length : Int) - offset else (len : Int)) > 20) := by
        split <;> omega
      simp only [hb, if_false]
      split <;> split <;> exact ⟨_, _, _, rfl⟩

/-! ## Attainable states: consistency of handles and threads -/

theorem le_foldr_max (l : List Nat) : ∀ x ∈ l, x ≤ l.foldr max 0 := by
  induction l with
  | nil => intro x hx; cases hx
  | cons a l ih =>
    intro x hx
    simp only [List.foldr_cons]
    rcases List.mem_cons.1 hx with h | h
    · subst h; exact Nat.le_max_left _ _
    · exact Nat.le_trans (ih x h) (Nat.le_max_right _ _)

theorem fresh_tid_not_live (s : State) : fresh_tid s ∉ live_tids s := by
  intro h
  have := le_foldr_max (live_tids s) _ h
  unfold fresh_tid at this
  omega

theorem tids_disjoint (s : State) (hN : (live_tids s).Nodup) (t : Nat)
    (h1 : t ∈ animation_tids s) (h2 : t ∈ dot_tids s) : False := by
  simp only [animation_tids, dot_tids, List.mem_map, List.mem_filter, decide_eq_true_eq] at h1 h2
  obtain ⟨k1, ⟨hk1, hf1⟩, ht1⟩ := h1
  obtain ⟨k2, ⟨hk2, hf2⟩, ht2⟩ := h2
  have := List.inj_on_of_nodup_map hN hk1 hk2 (by rw [ht1, ht2])
  rw [this, hf2] at hf1
  cases hf1

theorem stopped_tids (s : State) (t : Nat) :
    live_tids (stopped s t) = (live_tids s).filter (fun x => x ≠ t) ∧
    dot_tids (stopped s t) = (dot_tids s).filter (fun x => x ≠ t) := by
  constructor
  · simp only [live_tids, stopped]
    rw [List.filter_map]
    rfl
  · simp only [dot_tids, stopped]
    exact filter_tid_map s.kthreads _ t

/-- Threads after the `kthread_stop` guarded by `if (animation_thread)`, from a consistent
state whose animation handle is not an error pointer. -/
theorem stopped_only_threads (s : State) (hT : threads_ok s)
    (hp : IS_ERR s.animation_thread = false) :
    (live_tids (stopped_only s)).Nodup ∧ dot_tids (stopped_only s) = dot_tids s ∧
    animation_tids (stopped_only s) = [] ∧ absent_or_live s = true := by
  obtain ⟨hN, ⟨t0, hd, hdt⟩, ha⟩ := hT
  cases hh : s.animation_thread with
  | NULL =>
    simp only [hh] at ha
    have h1 : stopped_only s = s := by simp [stopped_only, hh]
    rw [h1]
    exact ⟨hN, rfl, ha, by simp [absent_or_live, hh, ha]⟩
  | task t =>
    simp only [hh] at ha
    have h1 : stopped_only s = stopped s t := by simp [stopped_only, hh]
    obtain ⟨hl, hdots⟩ := stopped_tids s t
    rw [h1, hl, hdots, animation_tids_stopped, ha, hdt]
    have hne : t0 ≠ t := by
      intro h
      exact tids_disjoint s hN t (by simp [ha]) (by simp [hdt, h])
    refine ⟨hN.filter _, by simp [hne], by simp, by simp [absent_or_live, hh, ha]⟩
  | ERR_PTR e => simp [hh, IS_ERR] at hp

theorem result_state_shapes (s : State) :
    (∀ d, (digit_state s d).kthreads = (stopped_only s).kthreads ∧
      (digit_state s d).dot_thread = s.dot_thread) ∧
    ((off_state s).kthreads = (stopped_only s).kthreads ∧
      (off_state s).dot_thread = s.dot_thread) ∧
    ((animation_state s).kthreads = (stopped_only s).kthreads ++
        [(fresh_tid (stopped_only s), ThreadFn.animation_thread_function)] ∧
      (animation_state s).dot_thread = s.dot_thread) ∧
    (∀ e, (failed_state s e).kthreads = (stopped_only s).kthreads ∧
      (failed_state s e).dot_thread = s.dot_thread ∧
      (failed_state s e).animation_thread = .ERR_PTR e) := by
  have hk : (cleared s).kthreads = (stopped_only s).kthreads ∧
      (cleared s).dot_thread = s.dot_thread ∧ (stopped_only s).dot_thread = s.dot_thread := by
    unfold cleared stopped_only
    cases s.animation_thread <;> exact ⟨rfl, rfl, rfl⟩
  refine ⟨fun d => ⟨?_, ?_⟩, ⟨?_, ?_⟩, ⟨rfl, hk.2.2⟩, fun e => ⟨rfl, hk.2.2, rfl⟩⟩
  · show (drive (cleared s) _).kthreads = _
    rw [drive_kthreads, hk.1]
  · show (drive (cleared s) _).dot_thread = _
    rw [drive_dot_thread, hk.2.1]
  · show (drive (cleared s) _).kthreads = _
    rw [drive_kthreads, hk.1]
  · show (drive (cleared s) _).dot_thread = _
    rw [drive_dot_thread, hk.2.1]

theorem device_write_ok_cases (s : State) (buffer : List Nat) (len : Nat)
    (run_errno : Option Nat) (r : Int) (s' : State)
    (h : device_write s buffer len run_errno = .ok (r, s')) :
    s' = s ∨ (stop_faults s = false ∧
      ((∃ d, d ≤ 9 ∧ s' = digit_state s d) ∨ s' = off_state s ∨ s' = animation_state s ∨
        ∃ errno, s' = failed_state s errno)) := by
  rw [device_write_form] at h
  split at h
  · exact Or.inl (by cases h; rfl)
  · split at h
    · exact Or.inl (by cases h; rfl)
    · split at h
      · split at h
        · rename_i h9
          split at h
          · cases h
          · rename_i hf
            refine Or.inr ⟨by simpa using hf, Or.inl ⟨_, h9, ?_⟩⟩
            cases h; rfl
        · exact Or.inl (by cases h; rfl)
      · split at h
        · split at h
          · cases h
          · rename_i hf
            refine Or.inr ⟨by simpa using hf, Or.inr (Or.inl ?_)⟩
            cases h; rfl
        · split at h
          · split at h
            · cases h
            · rename_i hf
              refine Or.inr ⟨by simpa using hf, Or.inr (Or.inr ?_)⟩
              split at h
              · exact Or.inl (by cases h; rfl)
              · exact Or.inr ⟨_, by cases h; rfl⟩
          · exact Or.inl (by cases h; rfl)

theorem stop_faults_false (s : State) (h : stop_faults s = false) :
    IS_ERR s.animation_thread = false := by
  unfold stop_faults at h
  cases hh : s.animation_thread <;> simp [hh, IS_ERR] at h ⊢

theorem inv_congr (s s' : State) (hm : s'.mode = s.mode)
    (hc : s'.current_number = s.current_number) (hk : s'.kthreads = s.kthreads)
    (hd : s'.dot_thread = s.dot_thread) (ha : s'.animation_thread = s.animation_thread) :
    mode_ok s ∧ threads_ok s → mode_ok s' ∧ threads_ok s' := by
  simp only [mode_ok, mode_valid, threads_ok, live_tids, dot_tids, animation_tids, hm, hc, hk,
    hd, ha]
  exact id

theorem init_threads (levels : Nat → Bool) (major : Int) (hmajor : 0 ≤ major) :
    threads_ok (sevenseg_init (boot levels) major none none none).2 := by
  have hm : ¬ major < 0 := by omega
  simp only [sevenseg_init, hm, if_false]
  refine ⟨?_, ⟨1, rfl, rfl⟩, rfl⟩
  show List.Nodup [1]
  exact List.nodup_singleton 1

theorem attainable_inv (s : State) (h : Attainable s) : mode_ok s ∧ threads_ok s := by
  induction h with
  | init levels major hmajor =>
    obtain ⟨h1, _, _, _⟩ := init_state_props levels major hmajor
    refine ⟨⟨Or.inl h1, ?_⟩, init_threads levels major hmajor⟩
    intro h; rw [h1] at h; cases h
  | write s buffer len run_errno r s' _ hw ih =>
    rcases device_write_ok_cases s buffer len run_errno r s' hw with h | ⟨hf, hcase⟩
    · rw [h]; exact ih
    · obtain ⟨hM, hT⟩ := ih
      obtain ⟨hN, hdots, hanim, hs⟩ := stopped_only_threads s hT (stop_faults_false s hf)
      obtain ⟨_, ⟨t0, hd0, hdt0⟩, _⟩ := hT
      obtain ⟨shD, shO, shA, shF⟩ := result_state_shapes s
      rcases hcase with ⟨d, hd, rfl⟩ | rfl | rfl | ⟨e, rfl⟩
      · obtain ⟨h1, h2, _, h4, h5, _⟩ := digit_state_props s d hd hs
        refine ⟨⟨Or.inr (Or.inl h1), fun _ => ⟨d, hd, h2⟩⟩, ?_, ⟨t0, ?_, ?_⟩, ?_⟩
        · simp only [live_tids, (shD d).1]; exact hN
        · rw [(shD d).2, hd0]
        · simp only [dot_tids, (shD d).1]; rw [← hdt0, ← hdots]; rfl
        · rw [h4]; exact h5
      · obtain ⟨h1, _, _, h4, h5, _⟩ := off_state_props s hs
        refine ⟨⟨Or.inl h1, ?_⟩, ?_, ⟨t0, ?_, ?_⟩, ?_⟩
        · intro h; rw [h1] at h; cases h
        · simp only [live_tids, shO.1]; exact hN
        · rw [shO.2, hd0]
        · simp only [dot_tids, shO.1]; rw [← hdt0, ← hdots]; rfl
        · rw [h4]; exact h5
      · obtain ⟨h1, _, _, h4, h5, _⟩ := animation_state_props s hs
        refine ⟨⟨Or.inr (Or.inr h1), ?_⟩, ?_, ⟨t0, ?_, ?_⟩, ?_⟩
        · intro h; rw [h1] at h; cases h
        · simp only [live_tids, shA.1, List.map_append, List.map_cons, List.map_nil]
          rw [← List.concat_eq_append]
          exact List.Nodup.concat (fresh_tid_not_live _) hN
        · rw [shA.2, hd0]
        · simp only [dot_tids, shA.1, List.filter_append, List.map_append]
          rw [← hdt0, ← hdots]
          simp [dot_tids]
        · rw [h4]; exact h5
      · obtain ⟨h1, h2, _, h4, h5, _⟩ := failed_state_props s e hs
        refine ⟨⟨?_, ?_⟩, ?_, ⟨t0, ?_, ?_⟩, ?_⟩
        · simp only [mode_valid, h1]; exact hM.1
        · intro h; rw [h1] at h; rw [h2]; exact hM.2 h
        · simp only [live_tids, (shF e).1]; exact hN
        · rw [(shF e).2.1, hd0]
        · simp only [dot_tids, (shF e).1]; rw [← hdt0, ← hdots]; rfl
        · rw [h4]; exact h5
  | read s cap len offset r _ hr ih =>
    rw [device_read_state s cap len offset r hr]; exact ih
  | animation_frame s i s' _ _ hstep ih =>
    obtain ⟨frame, rfl⟩ := animation_step_eq s i s' hstep
    exact inv_congr s _ (drive_mode s frame) (drive_current_number s frame)
      (drive_kthreads s frame) (drive_dot_thread s frame) (drive_animation_thread s frame) ih
  | dot_toggle s value _ _ ih =>
    exact inv_congr s _ rfl rfl rfl rfl rfl ih

/-! ## The status line -/

theorem status_line_facts (M : List Nat)
    (hM : M = cstr "Off\n" ∨
      (∃ d, d ≤ 9 ∧ M = cstr "Number: " ++ ['0'.toNat + d] ++ cstr "\n") ∨
      M = cstr "Animation\n") :
    M.getLast? = some '\n'.toNat ∧ 0 < M.length ∧ M.length ≤ 19 ∧
    M ≠ cstr "Unknown\n" ∧ M ≠ cstr "Number: -1\n" := by
  rcases hM with h | ⟨d, hd, h⟩ | h
  · subst h; decide
  · subst h; interval_cases d <;> decide
  · subst h; decide

theorem status_text_of_mode_ok (s : State) (h : mode_ok s) :
    status_text s = cstr "Off\n" ∨
    (∃ d, d ≤ 9 ∧ status_text s = cstr "Number: " ++ ['0'.toNat + d] ++ cstr "\n") ∨
    status_text s = cstr "Animation\n" := by
  obtain ⟨hv, hn⟩ := h
  rcases hv with hm | hm | hm
  · exact Or.inl (status_text_off s hm)
  · obtain ⟨d, hd, hc⟩ := hn hm
    exact Or.inr (Or.inl ⟨d, hd, status_text_number s d hd hm hc⟩)
  · exact Or.inr (Or.inr (status_text_animation s hm))

/-- Claim C11: in the state after a successful `sevenseg_init` and in every state attainable
from it by `device_write` calls (whether or not their task start succeeds), the status line
that `device_read` renders is exactly `"Off\n"`, `"Number: <d>\n"` with `<d>` one digit
0..9, or `"Animation\n"`: it ends in a newline, is at most 19 bytes long, `snprintf` does
not truncate it, it is neither `"Unknown\n"` nor `"Number: -1\n"`, and a read at offset 0
with room for 19 bytes delivers it whole. Right after initialisation it is `"Off\n"`. -/
theorem status_line_wellformed (s : State) (h : Attainable s) :
    (status_text s = cstr "Off\n" ∨
      (∃ d, d ≤ 9 ∧ status_text s = cstr "Number: " ++ ['0'.toNat + d] ++ cstr "\n") ∨
      status_text s = cstr "Animation\n") ∧
    (status_text s).getLast? = some '\n'.toNat ∧
    (status_text s).length ≤ 19 ∧
    snprintf 20 (status_text s)
      = (status_text s ++ List.replicate (20 - (status_text s).length) 0,
         ((status_text s).length : Int)) ∧
    status_text s ≠ cstr "Unknown\n" ∧ status_text s ≠ cstr "Number: -1\n" ∧
    (∀ cap n : Nat, 19 ≤ n → n ≤ cap →
      device_read s cap n 0
        = .ok { ret := ((status_text s).length : Int), data := status_text s,
                offset := ((status_text s).length : Int), state := s }) ∧
    (∀ (levels : Nat → Bool) (major : Int), 0 ≤ major →
      status_text (sevenseg_init (boot levels) major none none none).2 = cstr "Off\n") := by
  have hM := status_text_of_mode_ok s (attainable_inv s h).1
  obtain ⟨h1, h2, h3, h4, h5⟩ := status_line_facts (status_text s) hM
  refine ⟨hM, h1, h3, snprintf_fits _ h3, h4, h5, ?_, ?_⟩
  · intro cap n hn hcap
    exact device_read_whole s cap n _ rfl h2 h3 hn hcap
  · intro levels major hmajor
    exact status_text_off _ (init_state_props levels major hmajor).1

/-- Witness of C11: the state reached from initialisation by an `animation` write whose
task start fails with ENOMEM still renders `"Off\n"`. -/
theorem status_line_wellformed_witness :
    Attainable (failed_state state_initial 12) ∧
    status_text (failed_state state_initial 12) = cstr "Off\n" ∧
    (status_text (failed_state state_initial 12)).length ≤ 19 :=
  have h0 : Attainable state_initial := Attainable.init (fun _ => false) 240 (by decide)
  have h1 : Attainable (failed_state state_initial 12) :=
    Attainable.write state_initial (cstr "animation") 9 (some 12) (-12) _ h0
      (device_write_animation state_initial [] (some 12) (by decide) (by decide))
  have h := status_line_wellformed _ h1
  ⟨h1, rfl, h.2.2.1⟩

/-! ## The dot and the write operation -/

theorem foldl_gpio_other (l : List (Nat × Bool)) (pin : Nat) (h : ∀ pv ∈ l, pv.1 ≠ pin) :
    ∀ s : State, (l.foldl (fun st pv => gpio_set_value st pv.1 pv.2) s).gpio pin = s.gpio pin := by
  induction l with
  | nil => intro s; rfl
  | cons x xs ih =>
    intro s
    rw [List.foldl_cons, ih (fun pv hpv => h pv (by simp [hpv]))]
    have : pin ≠ x.1 := fun hx => h x (by simp) hx.symm
    simp [gpio_set_value, this]

theorem drive_gpio_other (s : State) (values : List Bool) (pin : Nat)
    (h : pin ∉ segment_pins) : (drive s values).gpio pin = s.gpio pin := by
  apply foldl_gpio_other
  intro pv hpv hpin
  have := (List.of_mem_zip (a := pv.1) (b := pv.2) hpv).1
  rw [hpin] at this
  exact h this

theorem zipWith_set_pins (pins : List Nat) :
    ∀ (vals : List Bool), ∀ ev ∈ List.zipWith Event.gpio_set_value pins vals,
      ∃ pin v, pin ∈ pins ∧ ev = Event.gpio_set_value pin v := by
  induction pins with
  | nil => intro vals ev h; simp at h
  | cons p ps ih =>
    intro vals ev h
    cases vals with
    | nil => simp at h
    | cons v vs =>
      rw [List.zipWith_cons_cons] at h
      rcases List.mem_cons.1 h with h | h
      · exact ⟨p, v, by simp, h⟩
      · obtain ⟨pin, w, hp, he⟩ := ih vs ev h
        exact ⟨pin, w, by simp [hp], he⟩

theorem drive_events (s0 : State) (values : List Bool) :
    ∀ ev ∈ List.zipWith Event.gpio_set_value segment_pins values, write_event s0 ev = true := by
  intro ev h
  obtain ⟨pin, v, hp, rfl⟩ := zipWith_set_pins segment_pins values ev h
  simpa [write_event] using hp

theorem stop_events_ok (s : State) : ∀ ev ∈ stop_events s, write_event s ev = true := by
  intro ev h
  unfold stop_events at h
  cases hh : s.animation_thread with
  | NULL => simp [hh] at h
  | task t =>
    simp only [hh, List.mem_singleton] at h
    subst h
    simp [write_event, hh]
  | ERR_PTR e => simp [hh] at h

theorem stop_block_frame (s : State) :
    (cleared s).trace = s.trace ++ stop_events s ∧
    (stopped_only s).trace = s.trace ++ stop_events s ∧
    (cleared s).gpio = s.gpio ∧ (stopped_only s).gpio = s.gpio := by
  unfold cleared stopped_only stop_events
  cases s.animation_thread <;> simp [stopped]

theorem stopped_only_dot_tids (s : State) (h : dot_apart s = true) :
    dot_tids (stopped_only s) = dot_tids s := by
  unfold dot_apart at h
  cases hh : s.animation_thread with
  | NULL => simp [stopped_only, hh]
  | task t =>
    simp only [hh, Bool.not_eq_true', List.contains_eq_any_beq, List.any_eq_false, beq_iff_eq] at h
    have h1 : stopped_only s = stopped s t := by simp [stopped_only, hh]
    rw [h1, (stopped_tids s t).2, List.filter_eq_self]
    intro a ha
    have : a ≠ t := fun hat => h a ha hat.symm
    simpa using this
  | ERR_PTR e => simp [stopped_only, hh]

/-- What the four state-changing outcomes of `device_write` do to the pins other than the
segment pins, to the dot handle, to the dot threads, and which kernel calls they add. -/
theorem result_state_frame (s s' : State) (hapart : dot_apart s = true)
    (h : (∃ d, s' = digit_state s d) ∨ s' = off_state s ∨ s' = animation_state s ∨
      ∃ errno, s' = failed_state s errno) :
    (∀ pin, pin ∉ segment_pins → s'.gpio pin = s.gpio pin) ∧
    s'.dot_thread = s.dot_thread ∧ dot_tids s' = dot_tids s ∧
    ∃ evs, s'.trace = s.trace ++ evs ∧ ∀ ev ∈ evs, write_event s ev = true := by
  obtain ⟨shD, shO, shA, shF⟩ := result_state_shapes s
  obtain ⟨t1, t2, g1, g2⟩ := stop_block_frame s
  have hdots := stopped_only_dot_tids s hapart
  rcases h with ⟨d, rfl⟩ | rfl | rfl | ⟨e, rfl⟩
  · refine ⟨?_, (shD d).2, ?_, ⟨stop_events s ++
      List.zipWith Event.gpio_set_value segment_pins (segments_number.getD d []), ?_, ?_⟩⟩
    · intro pin hpin
      show (drive (cleared s) _).gpio pin = _
      rw [drive_gpio_other _ _ _ hpin, g1]
    · simp only [dot_tids, (shD d).1]; exact hdots
    · show (drive (cleared s) _).trace = _
      rw [drive_trace, t1, List.append_assoc]
    · intro ev hev
      rcases List.mem_append.1 hev with h | h
      · exact stop_events_ok s ev h
      · exact drive_events s _ ev h
  · refine ⟨?_, shO.2, ?_, ⟨stop_events s ++
      List.zipWith Event.gpio_set_value segment_pins segments_off, ?_, ?_⟩⟩
    · intro pin hpin
      show (drive (cleared s) segments_off).gpio pin = _
      rw [drive_gpio_other _ _ _ hpin, g1]
    · simp only [dot_tids, shO.1]; exact hdots
    · show (drive (cleared s) _).trace = _
      rw [drive_trace, t1, List.append_assoc]
    · intro ev hev
      rcases List.mem_append.1 hev with h | h
      · exact stop_events_ok s ev h
      · exact drive_events s _ ev h
  · refine ⟨?_, shA.2, ?_, ⟨stop_events s ++
      [Event.kthread_run .animation_thread_function (.task (fresh_tid (stopped_only s)))],
      ?_, ?_⟩⟩
    · intro pin _
      show (stopped_only s).gpio pin = _
      rw [g2]
    · rw [← hdots]
      simp [dot_tids, shA.1]
    · show (stopped_only s).trace ++ _ = _
      rw [t2, List.append_assoc]
    · intro ev hev
      rcases List.mem_append.1 hev with h | h
      · exact stop_events_ok s ev h
      · simp only [List.mem_singleton] at h
        subst h
        simp [write_event]
  · refine ⟨?_, (shF e).2.1, ?_, ⟨stop_events s ++
      [Event.kthread_run .animation_thread_function (.ERR_PTR e)], ?_, ?_⟩⟩
    · intro pin _
      show (stopped_only s).gpio pin = _
      rw [g2]
    · simp only [dot_tids, (shF e).1]; exact hdots
    · show (stopped_only s).trace ++ _ = _
      rw [t2, List.append_assoc]
    · intro ev hev
      rcases List.mem_append.1 hev with h | h
      · exact stop_events_ok s ev h
      · simp only [List.mem_singleton] at h
        subst h
        simp [write_event]

theorem device_write_error_cases (s : State) (buffer : List Nat) (len : Nat)
    (run_errno : Option Nat) (f : Fault) (h : device_write s buffer len run_errno = .error f) :
    f = .bad_task_pointer s.animation_thread ∧ stop_faults s = true := by
  rw [device_write_form] at h
  repeat' split at h
  all_goals first | (cases h; exact ⟨rfl, by assumption⟩) | cases h

/-- In every attainable state the animation handle does not point to a dot thread. -/
theorem attainable_dot_apart (s : State) (h : Attainable s) : dot_apart s = true := by
  obtain ⟨_, hN, ⟨t0, _, hdt⟩, ha⟩ := attainable_inv s h
  unfold dot_apart
  cases hh : s.animation_thread with
  | NULL => rfl
  | task t =>
    simp only [hh] at ha
    have : t ∉ dot_tids s := fun hmem => tids_disjoint s hN t (by simp [ha]) hmem
    simpa using this
  | ERR_PTR e => rfl

/-- Claim C13: the dot is independent of mode changes. From every state whose animation
handle does not point to a dot thread (every attainable state is such a state) and for
every payload, recognised or not, oversized or not, with the task start succeeding or
failing, `device_write` either faults in `kthread_stop` on a bad animation handle, which is
its first kernel call, or returns; when it returns, the level of the dot pin, and of every
pin other than the seven segment pins, is unchanged, the dot handle is unchanged, the live
dot threads are the same, and the only kernel calls it made are `kthread_stop` on the
animation handle, `kthread_run` of the animation thread function and `gpio_set_value` on
segment pins. -/
theorem write_leaves_dot_alone (s : State) (buffer : List Nat) (len : Nat)
    (run_errno : Option Nat) (hapart : dot_apart s = true) :
    (device_write s buffer len run_errno = .error (.bad_task_pointer s.animation_thread) ∧
      stop_faults s = true) ∨
    ∃ r s', device_write s buffer len run_errno = .ok (r, s') ∧
      s'.gpio DOT_GPIO = s.gpio DOT_GPIO ∧
      (∀ pin, pin ∉ segment_pins → s'.gpio pin = s.gpio pin) ∧
      s'.dot_thread = s.dot_thread ∧ dot_tids s' = dot_tids s ∧
      ∃ evs, s'.trace = s.trace ++ evs ∧ ∀ ev ∈ evs, write_event s ev = true := by
  cases hres : device_write s buffer len run_errno with
  | error f =>
    obtain ⟨hf, hst⟩ := device_write_error_cases s buffer len run_errno f hres
    exact Or.inl ⟨by rw [hf], hst⟩
  | ok p =>
    obtain ⟨r, s'⟩ := p
    refine Or.inr ⟨r, s', rfl, ?_⟩
    have hframe : (∀ pin, pin ∉ segment_pins → s'.gpio pin = s.gpio pin) ∧
        s'.dot_thread = s.dot_thread ∧ dot_tids s' = dot_tids s ∧
        ∃ evs, s'.trace = s.trace ++ evs ∧ ∀ ev ∈ evs, write_event s ev = true := by
      rcases device_write_ok_cases s buffer len run_errno r s' hres with h | ⟨_, hcase⟩
      · rw [h]
        exact ⟨fun _ _ => rfl, rfl, rfl, [], by simp, by simp⟩
      · apply result_state_frame s s' hapart
        rcases hcase with ⟨d, _, h⟩ | h | h | h
        · exact Or.inl ⟨d, h⟩
        · exact Or.inr (Or.inl h)
        · exact Or.inr (Or.inr (Or.inl h))
        · exact Or.inr (Or.inr (Or.inr h))
    exact ⟨hframe.1 DOT_GPIO (by decide), hframe⟩

/-- Witness of C13: `"off"` sent while the animation runs (dot thread 1, dot pin high). -/
theorem write_leaves_dot_alone_witness :
    ∃ s', device_write state_animating (cstr "off") 3 none = .ok (3, s') ∧
      s'.gpio DOT_GPIO = true ∧ s'.dot_thread = .task 1 ∧ dot_tids s' = [1] := by
  have hok := device_write_off state_animating [] none (by decide) (by decide)
  rcases write_leaves_dot_alone state_animating (cstr "off") 3 none (by decide) with
    ⟨he, _⟩ | ⟨r, s', h, h1, _, h3, h4, _⟩
  · rw [show (cstr "off") = lit_off ++ [] from rfl] at he
    rw [show (3 : Nat) = (lit_off ++ ([] : List Nat)).length from rfl, hok] at he
    cases he
  · have h' := h
    rw [show (cstr "off") = lit_off ++ [] from rfl] at h'
    rw [show (3 : Nat) = (lit_off ++ ([] : List Nat)).length from rfl, hok] at h'
    cases h'
    exact ⟨_, hok, h1, h3, h4⟩

/-! ## Module exit -/

theorem dot_tid_live (s : State) (t : Nat) (h : t ∈ dot_tids s) : t ∈ live_tids s := by
  simp only [dot_tids, live_tids, List.mem_map, List.mem_filter] at h ⊢
  obtain ⟨k, ⟨hk, _⟩, rfl⟩ := h
  exact ⟨k, hk, rfl⟩

theorem kthreads_empty_of_tids (s : State) (h1 : dot_tids s = []) (h2 : animation_tids s = []) :
    s.kthreads = [] := by
  rw [List.eq_nil_iff_forall_not_mem]
  intro k hk
  cases hfn : k.2 with
  | dot_blinking_thread =>
    have : k.1 ∈ dot_tids s := by
      simp only [dot_tids, List.mem_map, List.mem_filter, decide_eq_true_eq]
      exact ⟨k, ⟨hk, hfn⟩, rfl⟩
    rw [h1] at this
    cases this
  | animation_thread_function =>
    have : k.1 ∈ animation_tids s := by
      simp only [animation_tids, List.mem_map, List.mem_filter, decide_eq_true_eq]
      exact ⟨k, ⟨hk, hfn⟩, rfl⟩
    rw [h2] at this
    cases this

/-- The two guarded `kthread_stop` calls of `sevenseg_exit` succeed when both handles are
absent or live, and leave no thread alive. -/
theorem exit_stop_blocks (s : State) (h : handles_live_or_absent s = true) :
    ∃ s1,
      (if s.dot_thread ≠ .NULL then kthread_stop s s.dot_thread else pure s) = Except.ok s1 ∧
      (if s1.animation_thread ≠ .NULL then kthread_stop s1 s1.animation_thread else pure s1)
        = Except.ok (exit_stopped s) ∧
      (exit_stopped s).kthreads = [] ∧ (exit_stopped s).gpio = s.gpio ∧
      (exit_stopped s).trace = s.trace ++ exit_stop_events s := by
  simp only [handles_live_or_absent, Bool.and_eq_true] at h
  obtain ⟨hal, hdot⟩ := h
  unfold absent_or_live at hal
  cases hd : s.dot_thread with
  | ERR_PTR e => simp [hd] at hdot
  | NULL =>
    simp only [hd, beq_iff_eq] at hdot
    refine ⟨s, by simp; rfl, ?_⟩
    cases ha : s.animation_thread with
    | ERR_PTR e => simp [ha] at hal
    | NULL =>
      simp only [ha, beq_iff_eq] at hal
      have he : exit_stopped s = s := by simp [exit_stopped, hd, stopped_only, ha]
      rw [he]
      exact ⟨by simp; rfl, kthreads_empty_of_tids s hdot hal, rfl,
        by simp [exit_stop_events, hd, stop_events, ha]⟩
    | task t1 =>
      simp only [ha, beq_iff_eq] at hal
      have he : exit_stopped s = stopped s t1 := by simp [exit_stopped, hd, stopped_only, ha]
      have hl : t1 ∈ live_tids s := animation_tid_live s t1 (by simp [hal])
      rw [he]
      refine ⟨by simp [kthread_stop_live, hl], ?_, rfl,
        by simp [exit_stop_events, hd, stop_events, ha, stopped]⟩
      apply kthreads_empty_of_tids
      · rw [(stopped_tids s t1).2, hdot]; rfl
      · rw [animation_tids_stopped, hal]; simp
  | task t0 =>
    simp only [hd, Bool.and_eq_true, beq_iff_eq, Bool.not_eq_true'] at hdot
    obtain ⟨hdt, hnot⟩ := hdot
    have hl0 : t0 ∈ live_tids s := dot_tid_live s t0 (by simp [hdt])
    refine ⟨stopped s t0, by simp [kthread_stop_live, hl0], ?_⟩
    have hd1 : dot_tids (stopped s t0) = [] := by
      rw [(stopped_tids s t0).2, hdt]; simp
    have ha1 : animation_tids (stopped s t0) = animation_tids s := by
      rw [animation_tids_stopped, List.filter_eq_self]
      intro a ha
      have : a ≠ t0 := by
        intro hat
        rw [hat] at ha
        simp at hnot
        exact hnot ha
      simpa using this
    have hat1 : (stopped s t0).animation_thread = s.animation_thread := rfl
    cases ha : s.animation_thread with
    | ERR_PTR e => simp [ha] at hal
    | NULL =>
      simp only [ha, beq_iff_eq] at hal
      have he : exit_stopped s = stopped s t0 := by
        simp [exit_stopped, hd, stopped_only, hat1, ha]
      rw [he, hat1, ha]
      exact ⟨by simp; rfl, kthreads_empty_of_tids _ hd1 (by rw [ha1, hal]), rfl,
        by simp [exit_stop_events, hd, stop_events, ha, stopped]⟩
    | task t1 =>
      simp only [ha, beq_iff_eq] at hal
      have he : exit_stopped s = stopped (stopped s t0) t1 := by
        simp [exit_stopped, hd, stopped_only, hat1, ha]
      have hl1 : t1 ∈ live_tids (stopped s t0) :=
        animation_tid_live _ t1 (by rw [ha1, hal]; simp)
      rw [he, hat1, ha]
      refine ⟨by simp [kthread_stop_live, hl1], ?_, rfl,
        by simp [exit_stop_events, hd, stop_events, ha, stopped]⟩
      apply kthreads_empty_of_tids
      · rw [(stopped_tids _ t1).2, hd1]; rfl
      · rw [animation_tids_stopped, ha1, hal]; simp

theorem call_fields (s : State) (e : Event) :
    (call s e).trace = s.trace ++ [e] ∧ (call s e).gpio = s.gpio ∧
    (call s e).kthreads = s.kthreads :=
  ⟨rfl, rfl, rfl⟩

theorem release_loop_list (l : List Nat) :
    ∀ s0 : State,
      (l.foldl (fun st i => call (call st (.gpio_unexport (segment_pins.getD i 0)))
        (.gpio_free (segment_pins.getD i 0))) s0).trace
        = s0.trace ++ (l.map (fun i => [Event.gpio_unexport (segment_pins.getD i 0),
            Event.gpio_free (segment_pins.getD i 0)])).flatten ∧
      (l.foldl (fun st i => call (call st (.gpio_unexport (segment_pins.getD i 0)))
        (.gpio_free (segment_pins.getD i 0))) s0).gpio = s0.gpio ∧
      (l.foldl (fun st i => call (call st (.gpio_unexport (segment_pins.getD i 0)))
        (.gpio_free (segment_pins.getD i 0))) s0).kthreads = s0.kthreads := by
  induction l with
  | nil => intro s0; simp
  | cons i l ih =>
    intro s0
    simp only [List.foldl_cons, List.map_cons, List.flatten_cons]
    obtain ⟨h1, h2, h3⟩ := ih (call (call s0 (.gpio_unexport (segment_pins.getD i 0)))
      (.gpio_free (segment_pins.getD i 0)))
    refine ⟨?_, ?_, ?_⟩
    · rw [h1]; simp [call]
    · rw [h2]; rfl
    · rw [h3]; rfl

theorem release_loop (s0 : State) :
    ((List.range NUM_GPIOS).foldl
      (fun st i => call (call st (.gpio_unexport (segment_pins.getD i 0)))
        (.gpio_free (segment_pins.getD i 0))) s0).trace
      = s0.trace ++ (segment_pins.map
          (fun pin => [Event.gpio_unexport pin, Event.gpio_free pin])).flatten ∧
    ((List.range NUM_GPIOS).foldl
      (fun st i => call (call st (.gpio_unexport (segment_pins.getD i 0)))
        (.gpio_free (segment_pins.getD i 0))) s0).gpio = s0.gpio ∧
    ((List.range NUM_GPIOS).foldl
      (fun st i => call (call st (.gpio_unexport (segment_pins.getD i 0)))
        (.gpio_free (segment_pins.getD i 0))) s0).kthreads = s0.kthreads := by
  obtain ⟨h1, h2, h3⟩ := release_loop_list (List.range NUM_GPIOS) s0
  refine ⟨?_, h2, h3⟩
  rw [h1]
  rfl

/-- Claim C15: shutdown order. From every state whose two task handles are absent or live,
`sevenseg_exit` returns, and the kernel calls it makes are, in this order: the
`kthread_stop` calls (dot thread, then animation thread, each only when its handle is set),
after which no thread is alive; the pin writes, which drive the seven segment pins and then
the dot pin to `true`; the pin releases (`gpio_unexport`, `gpio_free`) of the segment pins
and then of the dot pin; and the calls that remove the device. So every stop precedes every
pin write, every release follows all pin writes, and no thread is alive when a pin is
released; at the end all eight pins are at `true`. -/
theorem exit_stops_then_writes_then_releases (s : State)
    (h : handles_live_or_absent s = true) :
    ∃ s', sevenseg_exit s = .ok s' ∧
      s'.trace = s.trace ++ exit_stop_events s ++ exit_pin_writes ++ exit_pin_releases ++
        exit_device_calls ∧
      ((exit_stopped s).kthreads = [] ∧
        (exit_stopped s).trace = s.trace ++ exit_stop_events s) ∧
      (∀ ev ∈ exit_stop_events s,
        ev = .kthread_stop s.dot_thread ∨ ev = .kthread_stop s.animation_thread) ∧
      exit_pin_writes =
        [.gpio_set_value 2 true, .gpio_set_value 3 true, .gpio_set_value 4 true,
         .gpio_set_value 5 true, .gpio_set_value 6 true, .gpio_set_value 7 true,
         .gpio_set_value 8 true, .gpio_set_value 9 true] ∧
      exit_pin_releases =
        [.gpio_unexport 2, .gpio_free 2, .gpio_unexport 3, .gpio_free 3, .gpio_unexport 4,
         .gpio_free 4, .gpio_unexport 5, .gpio_free 5, .gpio_unexport 6, .gpio_free 6,
         .gpio_unexport 7, .gpio_free 7, .gpio_unexport 8, .gpio_free 8, .gpio_unexport 9,
         .gpio_free 9] ∧
      s'.kthreads = [] ∧ (∀ pin ∈ segment_pins ++ [ DOT_GPIO], s'.gpio pin = true) := by
  obtain ⟨s1, h1, h2, h3, h4, h5⟩ := exit_stop_blocks s h
  simp only [sevenseg_exit, h1, bind, Except.bind, h2, set_segment_values_eq _ segments_off rfl]
  refine ⟨_, rfl, ?_, ⟨h3, h5⟩, ?_, by decide, by decide, ?_, ?_⟩
  · simp only [(call_fields _ _).1]
    rw [(release_loop _).1]
    simp only [gpio_set_value, drive_trace, h5]
    simp [exit_pin_writes, exit_pin_releases, exit_device_calls, segment_pins, segments_off,
      DOT_GPIO]
  · intro ev hev
    simp only [exit_stop_events, stop_events, List.mem_append] at hev
    rcases hev with hev | hev
    · left
      cases hd : s.dot_thread <;> simp [hd] at hev
      rw [hev]
    · right
      cases ha : s.animation_thread <;> simp [ha] at hev
      rw [hev]
  · simp only [(call_fields _ _).2.2]
    rw [(release_loop _).2.2]
    show (drive (exit_stopped s) segments_off).kthreads = []
    rw [drive_kthreads, h3]
  · simp only [(call_fields _ _).2.1]
    rw [(release_loop _).2.1]
    have hl := drive_levels (exit_stopped s) segments_off rfl
    have hseg : ∀ pin ∈ segment_pins, (drive (exit_stopped s) segments_off).gpio pin = true := by
      simpa [segment_levels, segment_pins, segments_off] using hl
    intro pin hpin
    rcases List.mem_append.1 hpin with h | h
    · have hne : pin ≠ DOT_GPIO := by
        intro hp; rw [hp] at h; revert h; decide
      simp only [gpio_set_value, hne, if_false]
      exact hseg pin h
    · simp only [List.mem_singleton] at h
      subst h
      simp [gpio_set_value]

/-- Witness of C15: exit with the dot thread 1 and the animation thread 2 alive. -/
theorem exit_stops_then_writes_then_releases_witness :
    ∃ s', sevenseg_exit state_before_exit = .ok s' ∧
      s'.trace =
        [.kthread_stop (.task 1), .kthread_stop (.task 2),
         .gpio_set_value 2 true, .gpio_set_value 3 true, .gpio_set_value 4 true,
         .gpio_set_value 5 true, .gpio_set_value 6 true, .gpio_set_value 7 true,
         .gpio_set_value 8 true, .gpio_set_value 9 true,
         .gpio_unexport 2, .gpio_free 2, .gpio_unexport 3, .gpio_free 3, .gpio_unexport 4,
         .gpio_free 4, .gpio_unexport 5, .gpio_free 5, .gpio_unexport 6, .gpio_free 6,
         .gpio_unexport 7, .gpio_free 7, .gpio_unexport 8, .gpio_free 8, .gpio_unexport 9,
         .gpio_free 9,
         .device_destroy, .class_unregister, .class_destroy, .unregister_chrdev] ∧
      s'.kthreads = [] := by
  obtain ⟨s', h1, h2, _, _, _, _, h7, _⟩ :=
    exit_stops_then_writes_then_releases state_before_exit (by decide)
  exact ⟨s', h1, by rw [h2]; rfl, h7⟩

theorem reachable_attainable (s : State) (h : Reachable s) : Attainable s := by
  induction h with
  | init levels major hmajor => exact Attainable.init levels major hmajor
  | write s buffer len r s' _ hw ih => exact Attainable.write s buffer len none r s' ih hw
  | read s cap len offset r _ hr ih => exact Attainable.read s cap len offset r ih hr
  | animation_frame s i s' _ hrun hstep ih =>
    exact Attainable.animation_frame s i s' ih hrun hstep
  | dot_toggle s value _ hrun ih => exact Attainable.dot_toggle s value ih hrun

/-- In every state reachable with successful task starts both handles are absent or live. -/
theorem reachable_handles (s : State) (h : Reachable s) : handles_live_or_absent s = true := by
  obtain ⟨hv, hi⟩ := reachable_inv s h
  obtain ⟨_, hN, ⟨t0, hd, hdt⟩, _⟩ := attainable_inv s (reachable_attainable s h)
  have hal := invariant_absent_or_live s hv hi
  have hnot : t0 ∉ animation_tids s := fun hmem => tids_disjoint s hN t0 hmem (by simp [hdt])
  simp [handles_live_or_absent, hal, hd, hdt, hnot]

end SevenSegment
